import Mathlib

/-!
Verification of the release-automation script `tasks.py` of the warehouse
repository.  The script defines four invoke tasks (`release.test`,
`release.build`, `release.upload`, `release.all`) that shell out to git,
tox, setup.py and twine.

We embed the script shallowly: external commands are resolved by an
`Oracle` mapping a command line to its result (success flag plus stdout);
process state (working directory, environment variables, directories on
disk) is threaded explicitly; each task yields a `Result` holding the
final state, the trace of performed effects, and either normal return or
the propagated exception.

Python string manipulations (`str.split`, `int`, `str`, slicing,
`sorted`, `set`, `.strip()`, `.endswith`) are modelled by executable
functions over `String` / `List Char` below.
-/

namespace Warehouse

/-! ### Python string primitives -/

/-- Whitespace as recognised by Python's `str.split()` / `str.strip()`
(for the ASCII characters that occur in command output). -/
def isWs (c : Char) : Bool :=
  c = ' ' || c = '\n' || c = '\t' || c = '\r'

/-- ASCII decimal digit test, the digits accepted by Python `int` for the
nonnegative inputs arising here. -/
def isDigit (c : Char) : Bool :=
  48 ≤ c.toNat && c.toNat ≤ 57

/-- The decimal digit character for `n < 10`, as produced by Python `str`. -/
def digitCh (n : Nat) : Char := Char.ofNat (48 + n)

/-- Little-endian decimal digits of `n`, with fuel for structural
recursion (`fuel > n` suffices). -/
def toDigitsAux : Nat → Nat → List Char
  | 0, _ => []
  | fuel + 1, n =>
    if n < 10 then [digitCh n]
    else digitCh (n % 10) :: toDigitsAux fuel (n / 10)

/-- Python `str` on a nonnegative integer: decimal, no leading zeros. -/
def pyStr (n : Nat) : String := ⟨(toDigitsAux (n + 1) n).reverse⟩

/-- Accumulating decimal parser; `none` on a non-digit character. -/
def parseDigitsAux : List Char → Nat → Option Nat
  | [], acc => some acc
  | c :: rest, acc =>
    if isDigit c then parseDigitsAux rest (acc * 10 + (c.toNat - 48)) else none

/-- Python `int` on a string of decimal digits: `none` (a `ValueError`)
on the empty string or any non-digit character. -/
def parseDigits : List Char → Option Nat
  | [] => none
  | c :: rest => parseDigitsAux (c :: rest) 0

/-- Split a character list at every occurrence of `c`
(Python `str.split(sep)` semantics: empty pieces are kept). -/
def splitChar (c : Char) : List Char → List (List Char)
  | [] => [[]]
  | a :: rest =>
    match splitChar c rest with
    | [] => [[]]
    | h :: t => if a = c then [] :: h :: t else (a :: h) :: t

/-- Python `s.split(".")`. -/
def splitOnDot (s : String) : List String :=
  (splitChar '.' s.data).map (fun l => ⟨l⟩)

/-- Helper for `pySplitWs`: split on whitespace runs, dropping empties. -/
def splitWsAux : List Char → List Char → List String
  | [], acc => if acc = [] then [] else [⟨acc.reverse⟩]
  | c :: rest, acc =>
    if isWs c then
      if acc = [] then splitWsAux rest []
      else ⟨acc.reverse⟩ :: splitWsAux rest []
    else splitWsAux rest (c :: acc)

/-- Python `s.split()`: split on whitespace runs, no empty pieces. -/
def pySplitWs (s : String) : List String := splitWsAux s.data []

/-- Python `s.strip()`: remove leading and trailing whitespace. -/
def pyStrip (s : String) : String :=
  ⟨((s.data.dropWhile isWs).reverse.dropWhile isWs).reverse⟩

/-- Python `s[:n]` (slice by code points). -/
def pySlice (s : String) (n : Nat) : String := ⟨s.data.take n⟩

/-- `".".join(l)`. -/
def joinDot : List String → String
  | [] => ""
  | [x] => x
  | x :: y :: t => x ++ "." ++ joinDot (y :: t)

/-- `[str(int(x)) for x in parts]`, with `none` when some `int` raises
`ValueError`. -/
def mapIntStr : List String → Option (List String)
  | [] => some []
  | x :: t =>
    match parseDigits x.data, mapIntStr t with
    | some n, some r => some (pyStr n :: r)
    | _, _ => none

/-- `".".join([str(int(x)) for x in s.split(".")])`, with `none` when some
component is not a digit string (Python would raise `ValueError`). -/
def pyNormParts (s : String) : Option String :=
  (mapIntStr (splitOnDot s)).map joinDot

/-- Zero-pad a number to two digits, as `strftime` does for `%y` / `%m`. -/
def pad2 (n : Nat) : String :=
  if n < 10 then "0" ++ pyStr n else pyStr n

/-- `datetime.utcnow().strftime("%y.%m")` for a clock reading year `y`
and month `m`: two-digit zero-padded year modulo 100, a dot, and the
two-digit zero-padded month. -/
def strftime_ym (y m : Nat) : String :=
  pad2 (y % 100) ++ "." ++ pad2 m

/-- Lexicographic (code-point) comparison on character lists, Python's
string ordering. -/
def listCharLe : List Char → List Char → Bool
  | [], _ => true
  | _ :: _, [] => false
  | a :: as, b :: bs =>
    if a.toNat < b.toNat then true
    else if b.toNat < a.toNat then false
    else listCharLe as bs

/-- Python `<=` on strings. -/
def strLe (s t : String) : Bool := listCharLe s.data t.data

/-- Insert into a `strLe`-sorted list. -/
def insertStr (x : String) : List String → List String
  | [] => [x]
  | y :: t => if strLe x y then x :: y :: t else y :: insertStr x t

/-- Python `sorted` on a list of strings (insertion sort under the
code-point lexicographic order). -/
def sortStrs (l : List String) : List String := l.foldr insertStr []

/-- Python `set(l)` iterated as a list: each distinct element once. -/
def pySet : List String → List String
  | [] => []
  | x :: t =>
    let r := pySet t
    if x ∈ r then r else x :: r

/-! ### Path helpers -/

/-- `tmpdir if tmpdir.endswith("/") else tmpdir + "/"`. -/
def slashed (s : String) : String :=
  if s.data.getLast? = some '/' then s else s ++ "/"

/-- Strip one trailing slash, used to compare directory paths. -/
def normDir (s : String) : String :=
  if s.data.getLast? = some '/' then ⟨s.data.dropLast⟩ else s

/-- `os.path.join` for the simple two-component cases used here. -/
def joinPath (a b : String) : String :=
  if a.data.getLast? = some '/' then a ++ b else a ++ "/" ++ b

/-- `leadsWith l m` : `l` is a leading segment of `m`. -/
def leadsWith : List Char → List Char → Bool
  | [], _ => true
  | _ :: _, [] => false
  | a :: as, b :: bs => a = b && leadsWith as bs

/-- `q` lies strictly inside directory `p`. -/
def isUnder (q p : String) : Bool :=
  leadsWith (slashed (normDir p)).data q.data

/-- `shutil.rmtree p`: remove the directory `p` and everything under it
from the set of directories on disk. -/
def rmtreeFs (fs : List String) (p : String) : List String :=
  fs.filter (fun q => !(normDir q == normDir p || isUnder q p))

/-- `os.environ[k] = v` on an association list. -/
def envSet (env : List (String × String)) (k v : String) :
    List (String × String) :=
  if env.any (fun p => p.1 == k) then
    env.map (fun p => if p.1 == k then (k, v) else p)
  else env ++ [(k, v)]

/-! ### Version computation (`release_build`, lines 72-78 of tasks.py) -/

/-- Lines 72-73: `version_series = utcnow().strftime("%y.%m")` followed by
`".".join([str(int(x)) for x in version_series.split(".")])`. -/
def version_series? (y m : Nat) : Option String :=
  pyNormParts (strftime_ym y m)

/-- The last `"."`-separated component of a tag string
(`versions[-1].rsplit(".")[-1]`). -/
def lastDotComp (v : String) : String :=
  (splitOnDot v).getLastD ""

/-- The numeric counter of one tag: Python
`int(tag.rsplit(".")[-1])`, `none` when that raises `ValueError`. -/
def tagCounter (v : String) : Option Nat :=
  parseDigits (lastDotComp v).data

/-- Lines 75-76:
`versions = sorted(tags.stdout.split())` and
`version_num = int(versions[-1].rsplit(".")[-1]) + 1 if versions else 0`. -/
def version_num? (tagsStdout : String) : Option Nat :=
  let versions := sortStrs (pySplitWs tagsStdout)
  match versions.getLast? with
  | none => some 0
  | some v => (tagCounter v).map (· + 1)

/-- Lines 77-78: `version = ".".join([version_series, str(version_num)])`
renormalised componentwise with `str(int(·))`. -/
def release_version? (series : String) (n : Nat) : Option String :=
  pyNormParts (joinDot [series, pyStr n])

/-! ### The generated `warehouse/__about__.py` -/

/-- The dedented, `lstrip`-ed `about_template` up to the value of
`__version__`. -/
def aboutHeader : String :=
  "# Copyright 2013 Donald Stufft\n" ++
  "#\n" ++
  "# Licensed under the Apache License, Version 2.0 (the \"License\");\n" ++
  "# you may not use this file except in compliance with the License.\n" ++
  "# You may obtain a copy of the License at\n" ++
  "#\n" ++
  "# http://www.apache.org/licenses/LICENSE-2.0\n" ++
  "#\n" ++
  "# Unless required by applicable law or agreed to in writing, software\n" ++
  "# distributed under the License is distributed on an \"AS IS\" BASIS,\n" ++
  "# WITHOUT WARRANTIES OR CONDITIONS OF ANY KIND, either express or implied.\n" ++
  "# See the License for the specific language governing permissions and\n" ++
  "# limitations under the License.\n" ++
  "from __future__ import absolute_import, division, print_function\n" ++
  "from __future__ import unicode_literals\n" ++
  "\n" ++
  "# This file is automatically generated, do not edit it\n" ++
  "\n" ++
  "\n" ++
  "__all__ = [\n" ++
  "    \"__title__\", \"__summary__\", \"__uri__\", \"__version__\",\n" ++
  "    \"__author__\", \"__email__\", \"__license__\", \"__copyright__\",\n" ++
  "]\n" ++
  "\n" ++
  "__title__ = \"warehouse\"\n" ++
  "__summary__ = \"Next Generation Python Package Repository\"\n" ++
  "__uri__ = \"https://github.com/dstufft/warehouse\"\n" ++
  "\n" ++
  "__version__ = \""

/-- The template between the `__version__` value and the `__build__`
value. -/
def aboutMid : String := "\"\n" ++ "__build__ = \""

/-- The template after the closing quote of the `__build__` value. -/
def aboutPost : String :=
  "\n" ++
  "\n" ++
  "__author__ = \"Donald Stufft\"\n" ++
  "__email__ = \"donald@stufft.io\"\n" ++
  "\n" ++
  "__license__ = \"Apache License, Version 2.0\"\n" ++
  "__copyright__ = \"Copyright 2013 Donald Stufft\"\n"

/-- The template after the `__build__` value. -/
def aboutFooter : String := "\"" ++ aboutPost

/-- `about_template.format(version=..., build=...).lstrip()`: the file
contents written to `warehouse/__about__.py`. -/
def aboutContent (version build : String) : String :=
  aboutHeader ++ version ++ aboutMid ++ build ++ aboutFooter

/-- `os.path.join(os.path.abspath(os.path.dirname(__file__)),
"warehouse", "__about__.py")`, with the script directory a parameter. -/
def aboutPath (scriptDir : String) : String :=
  joinPath (joinPath scriptDir "warehouse") "__about__.py"

/-! ### Effect traces and process state -/

/-- One observable effect of a task. -/
inductive Action where
  | cmd (line : String)
  | chdir (dir : String)
  | mkdtemp (dir : String)
  | rmtree (dir : String)
  | writeFile (path content : String)
  | setEnv (key value : String)
  | makedirs (dir : String)
  | moveDir (src dst : String)
deriving Repr, DecidableEq

/-- The exception a task can propagate: `invoke.run` raising on a
nonzero exit status, `int()` raising `ValueError`, or `set.pop()`
raising `KeyError` on an empty set. -/
inductive Err where
  | cmdFail (line : String)
  | parseFail
  | popFail
deriving Repr, DecidableEq

/-- Normal return or a propagated exception. -/
inductive Outcome where
  | ok
  | err (e : Err)
deriving Repr, DecidableEq

/-- Result of one external command: success flag and captured stdout. -/
structure CmdResult where
  ok : Bool
  stdout : String
deriving Repr, DecidableEq

/-- The behaviour of the outside world: what each command line does. -/
abbrev Oracle := String → CmdResult

/-- Mutable process state: working directory, environment variables,
and the directories existing on disk. -/
structure PState where
  cwd : String
  env : List (String × String)
  fs : List String
deriving Repr, DecidableEq

/-- What one task invocation did: final state, effect trace, outcome. -/
structure Result where
  state : PState
  trace : List Action
  value : Outcome
deriving Repr, DecidableEq

/-! ### Command lines built by tasks.py -/

/-- `"git checkout-index -f -a --prefix={}".format(tmpdir)`. -/
def checkoutIndexCmd (tmpdir : String) : String :=
  "git checkout-index -f -a --prefix=" ++ tmpdir

/-- `"git tag -l 'v{}.*'".format(version_series)`. -/
def tagListCmd (series : String) : String :=
  "git tag -l \x27v" ++ series ++ ".*\x27"

/-- The release commit command of line 137. -/
def commitReleaseCmd (version build : String) : String :=
  "git commit -m \x27Generate the release __about__.py (version=" ++ version ++
    " build=" ++ build ++ ")\x27"

/-- `"git tag -s -m 'Released version v{0} ({1})' v{0}"`. -/
def tagSignCmd (version build : String) : String :=
  "git tag -s -m \x27Released version v" ++ version ++ " (" ++ build ++
    ")\x27 v" ++ version

/-- The development commit command of lines 211-217 (the format
arguments there are unused). -/
def commitDevCmd : String :=
  "git commit -m \x27Generate the development __about__.py\x27"

/-- `git add warehouse/__about__.py`. -/
def gitAddCmd : String := "git add warehouse/__about__.py"

/-! ### The test task (`release_test`, lines 29-59) -/

/-- The `for env in envs: invoke.run("tox -e {}".format(env))` loop. -/
def toxLoop (o : Oracle) : List String → List Action × Outcome
  | [] => ([], .ok)
  | e :: rest =>
    let c := "tox -e " ++ e
    if (o c).ok then
      let (tr, v) := toxLoop o rest
      (Action.cmd c :: tr, v)
    else ([Action.cmd c], .err (.cmdFail c))

/-- `envs = set(invoke.run("tox -l").stdout.split())` minus
`{"packaging"}` (lines 50-51). -/
def toxEnvsOf (o : Oracle) : List String :=
  (pySet (pySplitWs (o "tox -l").stdout)).filter (fun e => e ≠ "packaging")

/-- The body of `release_test`'s `try` block (lines 44-56). -/
def testBody (o : Oracle) (tmpdir : String) (s : PState) :
    PState × List Action × Outcome :=
  let c1 := checkoutIndexCmd tmpdir
  if (o c1).ok then
    let s1 := { s with cwd := tmpdir }
    if (o "tox -l").ok then
      let envs := toxEnvsOf o
      let (tr, v) := toxLoop o envs
      (s1, Action.cmd c1 :: Action.chdir tmpdir :: Action.cmd "tox -l" :: tr, v)
    else
      (s1, [Action.cmd c1, Action.chdir tmpdir, Action.cmd "tox -l"],
        .err (.cmdFail "tox -l"))
  else (s, [Action.cmd c1], .err (.cmdFail c1))

/-- Lines 35-36: `if database: os.environ[...] = database` (the empty
string is falsy in Python). -/
def dbState (database : Option String) (s : PState) : PState :=
  match database with
  | some d =>
    if d = "" then s
    else { s with env := envSet s.env "WAREHOUSE_DATABASE_URL" d }
  | none => s

/-- The effect recorded for lines 35-36. -/
def dbActs (database : Option String) : List Action :=
  match database with
  | some d => if d = "" then [] else [Action.setEnv "WAREHOUSE_DATABASE_URL" d]
  | none => []

/-- The `release.test` task.  `tmp` is the fresh directory name returned
by `tempfile.mkdtemp()`. -/
def release_test (o : Oracle) (database : Option String) (tmp : String)
    (s0 : PState) : Result :=
  let s1 := dbState database s0
  let curdir := s1.cwd
  let s2 := { s1 with fs := s1.fs ++ [tmp] }
  let tmpdir := slashed tmp
  let (s3, tr, v) := testBody o tmpdir s2
  { state := { s3 with cwd := curdir, fs := rmtreeFs s3.fs tmpdir },
    trace := dbActs database ++ Action.mkdtemp tmp :: tr ++
      [Action.chdir curdir, Action.rmtree tmpdir],
    value := v }

/-! ### The build task (`release_build`, lines 62-218) -/

/-- The `for dist_type in ["sdist", "bdist_wheel"]` loop (lines 181-185).
`distF i` is the result of the `i`-th `os.listdir("dist")` call; the set
difference being empty makes `.pop()` raise `KeyError`. -/
def distLoop (o : Oracle) (distF : Nat → List String) :
    List String → Nat → List Action × Outcome
  | [], _ => ([], .ok)
  | dt :: rest, i =>
    let c := "python setup.py " ++ dt
    if (o c).ok then
      if (distF (i + 1)).filter (fun f => f ∉ distF i) = [] then
        ([Action.cmd c], .err .popFail)
      else
        let (tr, v) := distLoop o distF rest (i + 2)
        (Action.cmd c :: tr, v)
    else ([Action.cmd c], .err (.cmdFail c))

/-- The body of `release_build`'s `try` block (lines 154-194). -/
def buildTryBody (o : Oracle) (distF : Nat → List String) (version : String)
    (tmpdir curdir : String) (s : PState) : PState × List Action × Outcome :=
  let cBr := "git rev-parse --abbrev-ref HEAD"
  if (o cBr).ok then
    let branch := pyStrip (o cBr).stdout
    let cCo := "git checkout v" ++ version
    if (o cCo).ok then
      let cIdx := checkoutIndexCmd tmpdir
      if (o cIdx).ok then
        let cBack := "git checkout " ++ branch
        if (o cBack).ok then
          let s1 := { s with cwd := tmpdir }
          let s2 := { s1 with fs := s1.fs ++ [joinPath tmpdir "dist"] }
          let hd := [Action.cmd cBr, Action.cmd cCo, Action.cmd cIdx,
            Action.cmd cBack, Action.chdir tmpdir, Action.makedirs "dist"]
          let (trD, vD) := distLoop o distF ["sdist", "bdist_wheel"] 0
          match vD with
          | .err e => (s2, hd ++ trD, .err e)
          | .ok =>
            let s3 := { s2 with cwd := curdir }
            let distDst := joinPath curdir "dist"
            let s4 := { s3 with fs := rmtreeFs s3.fs distDst }
            let s5 := { s4 with
              fs := rmtreeFs s4.fs (joinPath tmpdir "dist") ++ [distDst] }
            (s5, hd ++ trD ++ [Action.chdir curdir, Action.rmtree distDst,
              Action.moveDir (joinPath tmpdir "dist") distDst], .ok)
        else
          (s, [Action.cmd cBr, Action.cmd cCo, Action.cmd cIdx,
            Action.cmd cBack], .err (.cmdFail cBack))
      else
        (s, [Action.cmd cBr, Action.cmd cCo, Action.cmd cIdx],
          .err (.cmdFail cIdx))
    else (s, [Action.cmd cBr, Action.cmd cCo], .err (.cmdFail cCo))
  else (s, [Action.cmd cBr], .err (.cmdFail cBr))

/-- The final part of `release_build` (lines 200-218): regenerate
`warehouse/__about__.py` with the development version and commit it. -/
def buildDevPhase (o : Oracle) (scriptDir series : String) (n : Nat)
    (sF : PState) (trF : List Action) : Result :=
  match pyNormParts (joinDot [series, pyStr (n + 1)]) with
  | none => { state := sF, trace := trF, value := .err .parseFail }
  | some nv =>
    let nextVersion := nv ++ ".dev0"
    let wAct := Action.writeFile (aboutPath scriptDir)
      (aboutContent nextVersion "<development>")
    if (o gitAddCmd).ok then
      if (o commitDevCmd).ok then
        { state := sF, trace := trF ++ [wAct, Action.cmd gitAddCmd,
            Action.cmd commitDevCmd], value := .ok }
      else
        { state := sF, trace := trF ++ [wAct, Action.cmd gitAddCmd,
            Action.cmd commitDevCmd], value := .err (.cmdFail commitDevCmd) }
    else
      { state := sF, trace := trF ++ [wAct, Action.cmd gitAddCmd],
        value := .err (.cmdFail gitAddCmd) }

/-- The `release.build` task.  `distF i` is the `i`-th `os.listdir`
result, `y`/`m` the clock reading, `tmp` the fresh `mkdtemp` name,
`scriptDir` the directory containing tasks.py. -/
def release_build (o : Oracle) (distF : Nat → List String) (y m : Nat)
    (tmp scriptDir : String) (s0 : PState) : Result :=
  match version_series? y m with
  | none => { state := s0, trace := [], value := .err .parseFail }
  | some series =>
    let cTagL := tagListCmd series
    if (o cTagL).ok then
      match version_num? (o cTagL).stdout with
      | none =>
        { state := s0, trace := [Action.cmd cTagL], value := .err .parseFail }
      | some n =>
        match release_version? series n with
        | none =>
          { state := s0, trace := [Action.cmd cTagL], value := .err .parseFail }
        | some version =>
          let cRev := "git rev-parse HEAD"
          if (o cRev).ok then
            let buildTag := pySlice (o cRev).stdout 7
            let wAct := Action.writeFile (aboutPath scriptDir)
              (aboutContent version buildTag)
            if (o gitAddCmd).ok then
              let cCm := commitReleaseCmd version buildTag
              if (o cCm).ok then
                let cTs := tagSignCmd version buildTag
                if (o cTs).ok then
                  let preTr := [Action.cmd cTagL, Action.cmd cRev, wAct,
                    Action.cmd gitAddCmd, Action.cmd cCm, Action.cmd cTs]
                  let curdir := s0.cwd
                  let sM := { s0 with fs := s0.fs ++ [tmp] }
                  let tmpdir := slashed tmp
                  let (sB, trB, vB) :=
                    buildTryBody o distF version tmpdir curdir sM
                  let sF := { sB with
                    cwd := curdir
                    fs := rmtreeFs sB.fs tmpdir }
                  let trF := preTr ++ Action.mkdtemp tmp :: trB ++
                    [Action.chdir curdir, Action.rmtree tmpdir]
                  match vB with
                  | .err e => { state := sF, trace := trF, value := .err e }
                  | .ok => buildDevPhase o scriptDir series n sF trF
                else
                  { state := s0, trace := [Action.cmd cTagL, Action.cmd cRev,
                      wAct, Action.cmd gitAddCmd, Action.cmd cCm,
                      Action.cmd cTs], value := .err (.cmdFail cTs) }
              else
                { state := s0, trace := [Action.cmd cTagL, Action.cmd cRev,
                    wAct, Action.cmd gitAddCmd, Action.cmd cCm],
                  value := .err (.cmdFail cCm) }
            else
              { state := s0, trace := [Action.cmd cTagL, Action.cmd cRev,
                  wAct, Action.cmd gitAddCmd],
                value := .err (.cmdFail gitAddCmd) }
          else
            { state := s0, trace := [Action.cmd cTagL, Action.cmd cRev],
              value := .err (.cmdFail cRev) }
    else
      { state := s0, trace := [Action.cmd cTagL],
        value := .err (.cmdFail cTagL) }

/-! ### The upload task (`release_upload`, lines 221-229) -/

/-- `"twine upload --sign{} dist/*"` with the optional `-r` flag. -/
def twineCmd (repository : Option String) : String :=
  "twine upload --sign" ++
    (match repository with
     | none => ""
     | some r => " -r " ++ r) ++ " dist/*"

/-- The `release.upload` task. -/
def release_upload (o : Oracle) (repository : Option String)
    (s0 : PState) : Result :=
  let c := twineCmd repository
  if (o c).ok then
    { state := s0, trace := [Action.cmd c], value := .ok }
  else
    { state := s0, trace := [Action.cmd c], value := .err (.cmdFail c) }

/-! ### The `all` task (`release_all`, lines 232-238) -/

/-- invoke's pre-task sequencing: run the next task only when the
previous one returned normally; an exception aborts the whole run. -/
def seqTask (r : Result) (k : PState → Result) : Result :=
  match r.value with
  | .ok =>
    let r2 := k r.state
    { state := r2.state, trace := r.trace ++ r2.trace, value := r2.value }
  | .err e => { state := r.state, trace := r.trace, value := .err e }

/-- The body of `release_all` is `pass`: no effect, normal return. -/
def release_all_body (s : PState) : Result :=
  { state := s, trace := [], value := .ok }

/-- The `release.all` task: `pre=["release.test", "release.build",
"release.upload"]`, then the `pass` body. -/
def release_all (o : Oracle) (repository database : Option String)
    (distF : Nat → List String) (y m : Nat) (tmpT tmpB scriptDir : String)
    (s0 : PState) : Result :=
  seqTask (release_test o database tmpT s0) (fun s1 =>
    seqTask (release_build o distF y m tmpB scriptDir s1) (fun s2 =>
      seqTask (release_upload o repository s2) release_all_body))

/-! ### Lemmas: decimal printing and parsing -/

theorem digitCh_isDigit : ∀ k, k < 10 → isDigit (digitCh k) = true := by decide

theorem digitCh_toNat : ∀ k, k < 10 → (digitCh k).toNat - 48 = k := by decide

theorem digitCh_ne_dot : ∀ k, k < 10 → digitCh k ≠ '.' := by decide

theorem digitCh_not_ws : ∀ k, k < 10 → isWs (digitCh k) = false := by decide

theorem parseDigitsAux_append (l1 l2 : List Char) (acc : Nat) :
    parseDigitsAux (l1 ++ l2) acc =
      match parseDigitsAux l1 acc with
      | some a => parseDigitsAux l2 a
      | none => none := by
  induction l1 generalizing acc with
  | nil => simp [parseDigitsAux]
  | cons c rest ih =>
    simp only [List.cons_append, parseDigitsAux]
    by_cases h : isDigit c = true
    · simp [h, ih]
    · simp [h]

theorem toDigitsAux_mem (fuel : Nat) : ∀ n, n < fuel →
    ∀ c ∈ toDigitsAux fuel n, ∃ k, k < 10 ∧ c = digitCh k := by
  induction fuel with
  | zero => intro n h; omega
  | succ f ih =>
    intro n h c hc
    by_cases hn : n < 10
    · simp [toDigitsAux, hn] at hc
      exact ⟨n, hn, hc⟩
    · simp only [toDigitsAux, if_neg hn, List.mem_cons] at hc
      rcases hc with hc | hc
      · exact ⟨n % 10, Nat.mod_lt _ (by omega), hc⟩
      · refine ih (n / 10) ?_ c hc
        have h1 : n / 10 < n := Nat.div_lt_self (by omega) (by omega)
        omega

theorem toDigitsAux_parse (fuel : Nat) : ∀ n, n < fuel → ∀ acc : Nat,
    parseDigitsAux (toDigitsAux fuel n).reverse acc =
      some (acc * 10 ^ (toDigitsAux fuel n).length + n) := by
  induction fuel with
  | zero => intro n h; omega
  | succ f ih =>
    intro n h acc
    by_cases hn : n < 10
    · simp [toDigitsAux, hn, parseDigitsAux, digitCh_isDigit n hn,
        digitCh_toNat n hn]
    · have hrec : n / 10 < f := by
        have h1 : n / 10 < n := Nat.div_lt_self (by omega) (by omega)
        omega
      simp only [toDigitsAux, if_neg hn, List.reverse_cons]
      rw [parseDigitsAux_append, ih (n / 10) hrec acc]
      simp only [List.length_cons]
      set L := (toDigitsAux f (n / 10)).length with hL
      have hd : n % 10 < 10 := Nat.mod_lt _ (by omega)
      simp only [parseDigitsAux, digitCh_isDigit _ hd,
        digitCh_toNat _ hd]
      simp only [if_true, Option.some.injEq]
      rw [pow_succ, ← mul_assoc]
      generalize acc * (10 : Nat) ^ L = A
      omega

theorem toDigitsAux_ne_nil (fuel n : Nat) (h : n < fuel) :
    toDigitsAux fuel n ≠ [] := by
  cases fuel with
  | zero => omega
  | succ f =>
    by_cases hn : n < 10 <;> simp [toDigitsAux, hn]

/-- Python round trip: `int(str(n)) == n`. -/
theorem parseDigits_pyStr (n : Nat) : parseDigits (pyStr n).data = some n := by
  have hne := toDigitsAux_ne_nil (n + 1) n (by omega)
  have hp := toDigitsAux_parse (n + 1) n (by omega) 0
  rcases hrev : (toDigitsAux (n + 1) n).reverse with _ | ⟨c, rest⟩
  · exact absurd (by simpa using hrev) hne
  · show parseDigits (toDigitsAux (n + 1) n).reverse = some n
    rw [hrev]
    rw [hrev] at hp
    simpa using hp

theorem pyStr_chars (n : Nat) :
    ∀ c ∈ (pyStr n).data, ∃ k, k < 10 ∧ c = digitCh k := by
  intro c hc
  simp only [pyStr, List.mem_reverse] at hc
  exact toDigitsAux_mem (n + 1) n (by omega) c hc

theorem pyStr_ne_dot (n : Nat) : ∀ c ∈ (pyStr n).data, c ≠ '.' := by
  intro c hc
  rcases pyStr_chars n c hc with ⟨k, hk, rfl⟩
  exact digitCh_ne_dot k hk

theorem parseDigits_eq_aux (l : List Char) (h : l ≠ []) :
    parseDigits l = parseDigitsAux l 0 := by
  cases l with
  | nil => exact absurd rfl h
  | cons c rest => rfl

theorem pyStr_data_ne_nil (n : Nat) : (pyStr n).data ≠ [] := by
  intro h
  have := toDigitsAux_ne_nil (n + 1) n (by omega)
  simp only [pyStr] at h
  exact this (by simpa using h)

/-- `int(pad2 k) = k`: parsing the zero-padded rendering. -/
theorem parseDigits_pad2 (k : Nat) : parseDigits (pad2 k).data = some k := by
  by_cases hk : k < 10
  · have h1 : ("0" ++ pyStr k).data = '0' :: (pyStr k).data := by
      rw [String.data_append]; rfl
    have h0 : ∀ rest, parseDigitsAux ('0' :: rest) 0 = parseDigitsAux rest 0 :=
      fun rest => rfl
    simp only [pad2, if_pos hk, h1]
    rw [parseDigits_eq_aux _ (by simp), h0,
      ← parseDigits_eq_aux _ (pyStr_data_ne_nil k)]
    exact parseDigits_pyStr k
  · simp only [pad2, if_neg hk]
    exact parseDigits_pyStr k

/-! ### Lemmas: splitting and joining on dots -/

theorem str_assoc (a b c : String) : a ++ b ++ c = a ++ (b ++ c) := by
  apply String.ext
  simp [String.data_append, List.append_assoc]

theorem splitChar_ne_nil (c : Char) (l : List Char) : splitChar c l ≠ [] := by
  cases l with
  | nil => simp [splitChar]
  | cons a rest =>
    simp only [splitChar]
    rcases h : splitChar c rest with _ | ⟨x, t⟩
    · simp
    · by_cases hc : a = c <;> simp [hc]

theorem splitChar_of_not_mem (c : Char) (l : List Char) (h : c ∉ l) :
    splitChar c l = [l] := by
  induction l with
  | nil => rfl
  | cons a rest ih =>
    have ha : a ≠ c := fun hac => h (hac ▸ List.mem_cons_self a rest)
    have hr : c ∉ rest := fun hc => h (List.mem_cons_of_mem a hc)
    simp only [splitChar, ih hr]
    simp [ha]

theorem splitChar_append (c : Char) (l1 l2 : List Char) (h : c ∉ l1) :
    splitChar c (l1 ++ c :: l2) = l1 :: splitChar c l2 := by
  induction l1 with
  | nil =>
    simp only [List.nil_append, splitChar]
    rcases hs : splitChar c l2 with _ | ⟨x, t⟩
    · exact absurd hs (splitChar_ne_nil c l2)
    · simp
  | cons a rest ih =>
    have ha : a ≠ c := fun hac => h (hac ▸ List.mem_cons_self a rest)
    have hr : c ∉ rest := fun hc => h (List.mem_cons_of_mem a hc)
    simp only [List.cons_append, splitChar, List.append_eq]
    rw [ih hr]
    simp [ha]

theorem pad2_ne_dot (k : Nat) : ∀ c ∈ (pad2 k).data, c ≠ '.' := by
  intro c hc
  by_cases hk : k < 10
  · simp only [pad2, if_pos hk, String.data_append] at hc
    rcases List.mem_append.mp hc with h0 | h0
    · simp only [show ("0" : String).data = ['0'] from rfl,
        List.mem_singleton] at h0
      subst h0; decide
    · exact pyStr_ne_dot k c h0
  · simp only [pad2, if_neg hk] at hc
    exact pyStr_ne_dot k c hc

theorem data_append_dot (a b : String) :
    (a ++ "." ++ b).data = a.data ++ '.' :: b.data := by
  simp [String.data_append]

theorem splitOnDot_pair (a b : String)
    (ha : ∀ c ∈ a.data, c ≠ '.') (hb : ∀ c ∈ b.data, c ≠ '.') :
    splitOnDot (a ++ "." ++ b) = [a, b] := by
  have hna : '.' ∉ a.data := fun h => ha '.' h rfl
  have hnb : '.' ∉ b.data := fun h => hb '.' h rfl
  simp only [splitOnDot, data_append_dot, splitChar_append '.' a.data b.data hna,
    splitChar_of_not_mem '.' b.data hnb, List.map]

/-- The series as the spec describes it: two-digit year and month, each
without leading zeros, joined by a dot. -/
def seriesStr (y m : Nat) : String := pyStr (y % 100) ++ "." ++ pyStr m

/-- Lines 72-73 always succeed and produce the normalised series. -/
theorem version_series_eq (y m : Nat) :
    version_series? y m = some (seriesStr y m) := by
  simp only [version_series?, strftime_ym, pyNormParts,
    splitOnDot_pair (pad2 (y % 100)) (pad2 m) (pad2_ne_dot _) (pad2_ne_dot _),
    mapIntStr, parseDigits_pad2, seriesStr]
  rfl

theorem mapIntStr_pyStr (l : List Nat) :
    mapIntStr (l.map pyStr) = some (l.map pyStr) := by
  induction l with
  | nil => rfl
  | cons a t ih =>
    simp only [List.map_cons, mapIntStr, parseDigits_pyStr, ih]

theorem splitOnDot_pyStr (a : Nat) :
    splitOnDot (pyStr a) = [pyStr a] := by
  have h : '.' ∉ (pyStr a).data := fun h => pyStr_ne_dot a '.' h rfl
  simp [splitOnDot, splitChar_of_not_mem '.' _ h]

theorem splitOnDot_joinDot_pyStr (a : Nat) (l : List Nat) :
    splitOnDot (joinDot ((a :: l).map pyStr)) = (a :: l).map pyStr := by
  induction l generalizing a with
  | nil => simpa [joinDot] using splitOnDot_pyStr a
  | cons b t ih =>
    have hna : '.' ∉ (pyStr a).data := fun h => pyStr_ne_dot a '.' h rfl
    have hd : joinDot ((a :: b :: t).map pyStr) =
        pyStr a ++ "." ++ joinDot ((b :: t).map pyStr) := rfl
    rw [hd]
    simp only [splitOnDot, data_append_dot,
      splitChar_append '.' _ _ hna, List.map_cons]
    have hb := ih b
    simp only [splitOnDot, List.map_cons] at hb ⊢
    rw [hb]

theorem pyNorm_fix (a : Nat) (l : List Nat) :
    pyNormParts (joinDot ((a :: l).map pyStr)) =
      some (joinDot ((a :: l).map pyStr)) := by
  rw [pyNormParts, splitOnDot_joinDot_pyStr, mapIntStr_pyStr]
  rfl

/-- Lines 77-78 always succeed: the release version is the series, a
dot, and the decimal counter. -/
theorem release_version_eq (y m n : Nat) :
    release_version? (seriesStr y m) n =
      some (seriesStr y m ++ "." ++ pyStr n) := by
  have harg : joinDot [seriesStr y m, pyStr n] =
      joinDot ([y % 100, m, n].map pyStr) := by
    show seriesStr y m ++ "." ++ pyStr n =
      pyStr (y % 100) ++ "." ++ (pyStr m ++ "." ++ pyStr n)
    rw [seriesStr, str_assoc, str_assoc, str_assoc (pyStr m)]
  have hres : joinDot ([y % 100, m, n].map pyStr) =
      seriesStr y m ++ "." ++ pyStr n := by
    rw [← harg]; rfl
  rw [release_version?, harg, pyNorm_fix, hres]

/-! ### Trace predicates -/

/-- Every command in the trace succeeded. -/
def cmdsOk (o : Oracle) (tr : List Action) : Prop :=
  ∀ c, Action.cmd c ∈ tr → (o c).ok = true

/-- The trace consists solely of `finally`-block cleanup actions. -/
def cleanupOnly (tr : List Action) : Prop :=
  ∀ a ∈ tr, (∃ d, a = Action.chdir d) ∨ (∃ d, a = Action.rmtree d)

/-- When a task propagates a command failure, its trace is: successful
commands, the failing command, then cleanup only — no further command,
no retry. -/
def failDecomp (o : Oracle) (r : Result) : Prop :=
  ∀ c, r.value = .err (.cmdFail c) →
    ∃ pre post, r.trace = pre ++ Action.cmd c :: post ∧
      (o c).ok = false ∧ cmdsOk o pre ∧ cleanupOnly post

theorem cmdsOk_nil (o : Oracle) : cmdsOk o [] := fun c hc => absurd hc (by simp)

theorem cmdsOk_append (o : Oracle) (a b : List Action) (ha : cmdsOk o a)
    (hb : cmdsOk o b) : cmdsOk o (a ++ b) := by
  intro c hc
  rcases List.mem_append.mp hc with h | h
  · exact ha c h
  · exact hb c h

theorem cleanupOnly_nil : cleanupOnly [] := fun a ha => absurd ha (by simp)

/-- The `tox -e` environment named by an action, when there is one. -/
def toxEnvArg : Action → Option String
  | Action.cmd c =>
    if leadsWith "tox -e ".data c.data then some ⟨c.data.drop 7⟩ else none
  | _ => none

/-- The tox environments run in a trace, in order. -/
def toxCmdsOf (tr : List Action) : List String := tr.filterMap toxEnvArg

theorem toxEnvArg_tox (e : String) :
    toxEnvArg (Action.cmd ("tox -e " ++ e)) = some e := rfl

theorem toxCmdsOf_append (a b : List Action) :
    toxCmdsOf (a ++ b) = toxCmdsOf a ++ toxCmdsOf b :=
  List.filterMap_append a b toxEnvArg

/-! ### Loop lemmas -/

theorem toxLoop_ok_trace (o : Oracle) (es : List String)
    (h : (toxLoop o es).2 = .ok) :
    (toxLoop o es).1 = es.map (fun e => Action.cmd ("tox -e " ++ e)) := by
  induction es with
  | nil => rfl
  | cons e rest ih =>
    rcases hr : toxLoop o rest with ⟨tr, v⟩
    by_cases hc : (o ("tox -e " ++ e)).ok = true
    · simp only [toxLoop, if_pos hc, hr] at h ⊢
      have h2 : tr = List.map (fun e => Action.cmd ("tox -e " ++ e)) rest := by
        have := ih (by rw [hr]; exact h)
        rw [hr] at this
        exact this
      simp [h2]
    · simp only [toxLoop, if_neg hc] at h
      cases h

theorem toxLoop_take (o : Oracle) (es : List String) :
    ∃ k, toxCmdsOf (toxLoop o es).1 = es.take k := by
  induction es with
  | nil => exact ⟨0, rfl⟩
  | cons e rest ih =>
    by_cases hc : (o ("tox -e " ++ e)).ok = true
    · rcases hr : toxLoop o rest with ⟨tr, v⟩
      rcases ih with ⟨k, hk⟩
      rw [hr] at hk
      refine ⟨k + 1, ?_⟩
      simp only [toxLoop, if_pos hc, hr, toxCmdsOf, List.filterMap_cons,
        toxEnvArg_tox, List.take_succ_cons]
      simpa [toxCmdsOf] using hk
    · refine ⟨1, ?_⟩
      simp [toxLoop, if_neg hc, toxCmdsOf, toxEnvArg_tox]

theorem toxLoop_ok_cmdsOk (o : Oracle) (es : List String)
    (h : (toxLoop o es).2 = .ok) : cmdsOk o (toxLoop o es).1 := by
  induction es with
  | nil => exact cmdsOk_nil o
  | cons e rest ih =>
    rcases hr : toxLoop o rest with ⟨tr, v⟩
    by_cases hc : (o ("tox -e " ++ e)).ok = true
    · simp only [toxLoop, if_pos hc, hr] at h ⊢
      intro c hcm
      rcases List.mem_cons.mp hcm with hcm | hcm
      · cases hcm; exact hc
      · have := ih (by rw [hr]; exact h)
        rw [hr] at this
        exact this c hcm
    · simp only [toxLoop, if_neg hc] at h
      cases h

theorem toxLoop_fail (o : Oracle) (es : List String) (er : Err)
    (h : (toxLoop o es).2 = .err er) :
    ∃ c pre, er = .cmdFail c ∧ (o c).ok = false ∧
      (toxLoop o es).1 = pre ++ [Action.cmd c] ∧ cmdsOk o pre := by
  induction es with
  | nil => simp [toxLoop] at h
  | cons e rest ih =>
    rcases hr : toxLoop o rest with ⟨tr, v⟩
    by_cases hc : (o ("tox -e " ++ e)).ok = true
    · simp only [toxLoop, if_pos hc, hr] at h ⊢
      have hv : v = .err er := h
      rcases ih (by rw [hr]; exact hv) with ⟨c, pre, he, hco, htr, hpre⟩
      rw [hr] at htr
      have htr2 : tr = pre ++ [Action.cmd c] := htr
      refine ⟨c, Action.cmd ("tox -e " ++ e) :: pre, he, hco,
        by simp [htr2], ?_⟩
      intro c2 hc2
      rcases List.mem_cons.mp hc2 with hc2 | hc2
      · cases hc2; exact hc
      · exact hpre c2 hc2
    · simp only [toxLoop, if_neg hc] at h ⊢
      have hcF : (o ("tox -e " ++ e)).ok = false := by
        revert hc; cases (o ("tox -e " ++ e)).ok <;> simp
      cases h
      exact ⟨_, [], rfl, hcF, rfl, cmdsOk_nil o⟩

theorem distLoop_ok_cmdsOk (o : Oracle) (distF : Nat → List String)
    (ds : List String) (i : Nat) (h : (distLoop o distF ds i).2 = .ok) :
    cmdsOk o (distLoop o distF ds i).1 := by
  induction ds generalizing i with
  | nil => exact cmdsOk_nil o
  | cons dt rest ih =>
    by_cases hc : (o ("python setup.py " ++ dt)).ok = true
    · by_cases hp : (distF (i + 1)).filter (fun f => f ∉ distF i) = []
      · simp only [distLoop, if_pos hc, if_pos hp] at h
        cases h
      · rcases hr : distLoop o distF rest (i + 2) with ⟨tr, v⟩
        simp only [distLoop, if_pos hc, if_neg hp, hr] at h ⊢
        intro c hcm
        rcases List.mem_cons.mp hcm with hcm | hcm
        · cases hcm; exact hc
        · have := ih (i + 2) (by rw [hr]; exact h)
          rw [hr] at this
          exact this c hcm
    · simp only [distLoop, if_neg hc] at h
      cases h

theorem distLoop_fail_cmd (o : Oracle) (distF : Nat → List String)
    (ds : List String) (i : Nat) (c : String)
    (h : (distLoop o distF ds i).2 = .err (.cmdFail c)) :
    ∃ pre, (o c).ok = false ∧
      (distLoop o distF ds i).1 = pre ++ [Action.cmd c] ∧ cmdsOk o pre := by
  induction ds generalizing i with
  | nil => simp [distLoop] at h
  | cons dt rest ih =>
    by_cases hc : (o ("python setup.py " ++ dt)).ok = true
    · by_cases hp : (distF (i + 1)).filter (fun f => f ∉ distF i) = []
      · simp only [distLoop, if_pos hc, if_pos hp] at h
        simp at h
      · rcases hr : distLoop o distF rest (i + 2) with ⟨tr, v⟩
        simp only [distLoop, if_pos hc, if_neg hp, hr] at h ⊢
        rcases ih (i + 2) (by rw [hr]; exact h) with ⟨pre, hco, htr, hpre⟩
        rw [hr] at htr
        have htr2 : tr = pre ++ [Action.cmd c] := htr
        refine ⟨Action.cmd ("python setup.py " ++ dt) :: pre, hco,
          by simp [htr2], ?_⟩
        intro c2 hc2
        rcases List.mem_cons.mp hc2 with hc2 | hc2
        · cases hc2; exact hc
        · exact hpre c2 hc2
    · simp only [distLoop, if_neg hc] at h ⊢
      have hcF : (o ("python setup.py " ++ dt)).ok = false := by
        revert hc; cases (o ("python setup.py " ++ dt)).ok <;> simp
      cases h
      exact ⟨[], hcF, rfl, cmdsOk_nil o⟩

/-! ### Set, path and state lemmas -/

theorem pySet_nodup (l : List String) : (pySet l).Nodup := by
  induction l with
  | nil => exact List.nodup_nil
  | cons x t ih =>
    simp only [pySet]
    by_cases hx : x ∈ pySet t
    · simpa [hx] using ih
    · simpa [hx] using List.Nodup.cons hx ih

theorem toxEnvsOf_nodup (o : Oracle) : (toxEnvsOf o).Nodup :=
  (pySet_nodup _).filter _

theorem packaging_not_mem_toxEnvsOf (o : Oracle) :
    "packaging" ∉ toxEnvsOf o := by
  intro h
  rcases List.mem_filter.mp h with ⟨-, h2⟩
  simp at h2

/-- Appending a slash does not change the directory a path denotes. -/
theorem normDir_slashed (t : String) : normDir (slashed t) = normDir t := by
  by_cases h : t.data.getLast? = some '/'
  · simp [slashed, h]
  · have hd : (t ++ "/").data = t.data ++ ['/'] := by
      rw [String.data_append]
    simp only [slashed, if_neg h, normDir, hd]
    have hc : (t.data ++ ['/']).getLast? = some '/' := List.getLast?_concat _
    rw [if_pos hc, List.dropLast_concat]

theorem mem_rmtreeFs (fs : List String) (p q : String)
    (h : q ∈ rmtreeFs fs p) : normDir q ≠ normDir p := by
  rcases List.mem_filter.mp h with ⟨-, h2⟩
  intro he
  simp [he] at h2

theorem rmtreeFs_subset (fs : List String) (p q : String)
    (h : q ∈ rmtreeFs fs p) : q ∈ fs :=
  (List.mem_filter.mp h).1

theorem testBody_env (o : Oracle) (tmpdir : String) (s : PState) :
    (testBody o tmpdir s).1.env = s.env := by
  unfold testBody
  by_cases h1 : (o (checkoutIndexCmd tmpdir)).ok = true
  · by_cases h2 : (o "tox -l").ok = true
    · rcases h3 : toxLoop o (toxEnvsOf o) with ⟨tr, v⟩
      simp [h1, h2, h3]
    · simp [h1, h2]
  · simp [h1]

theorem testBody_fs (o : Oracle) (tmpdir : String) (s : PState) :
    (testBody o tmpdir s).1.fs = s.fs := by
  unfold testBody
  by_cases h1 : (o (checkoutIndexCmd tmpdir)).ok = true
  · by_cases h2 : (o "tox -l").ok = true
    · rcases h3 : toxLoop o (toxEnvsOf o) with ⟨tr, v⟩
      simp [h1, h2, h3]
    · simp [h1, h2]
  · simp [h1]

theorem buildTryBody_env (o : Oracle) (distF : Nat → List String)
    (version tmpdir curdir : String) (s : PState) :
    (buildTryBody o distF version tmpdir curdir s).1.env = s.env := by
  unfold buildTryBody
  by_cases h1 : (o "git rev-parse --abbrev-ref HEAD").ok = true
  · by_cases h2 : (o ("git checkout v" ++ version)).ok = true
    · by_cases h3 : (o (checkoutIndexCmd tmpdir)).ok = true
      · by_cases h4 :
          (o ("git checkout " ++
            pyStrip (o "git rev-parse --abbrev-ref HEAD").stdout)).ok = true
        · rcases h5 : distLoop o distF ["sdist", "bdist_wheel"] 0 with ⟨tr, v⟩
          cases v <;> simp [h1, h2, h3, h4, h5]
        · simp [h1, h2, h3, h4]
      · simp [h1, h2, h3]
    · simp [h1, h2]
  · simp [h1]

/-! ### Shape lemmas for the test task -/

theorem dbState_cwd (db : Option String) (s : PState) :
    (dbState db s).cwd = s.cwd := by
  cases db with
  | none => rfl
  | some d =>
    by_cases h : d = "" <;> simp [dbState, h]

theorem dbState_fs (db : Option String) (s : PState) :
    (dbState db s).fs = s.fs := by
  cases db with
  | none => rfl
  | some d =>
    by_cases h : d = "" <;> simp [dbState, h]

theorem dbActs_no_cmd (db : Option String) :
    ∀ c, Action.cmd c ∉ dbActs db := by
  intro c hc
  cases db with
  | none => simp [dbActs] at hc
  | some d =>
    by_cases h : d = "" <;> simp [dbActs, h] at hc

theorem toxCmdsOf_dbActs (db : Option String) : toxCmdsOf (dbActs db) = [] := by
  cases db with
  | none => rfl
  | some d =>
    by_cases h : d = "" <;> simp [dbActs, h, toxCmdsOf, toxEnvArg]

theorem testBody_c1_fail (o : Oracle) (tmpdir : String) (s : PState)
    (h1 : (o (checkoutIndexCmd tmpdir)).ok = false) :
    testBody o tmpdir s =
      (s, [Action.cmd (checkoutIndexCmd tmpdir)],
        .err (.cmdFail (checkoutIndexCmd tmpdir))) := by
  simp [testBody, h1]

theorem testBody_toxl_fail (o : Oracle) (tmpdir : String) (s : PState)
    (h1 : (o (checkoutIndexCmd tmpdir)).ok = true)
    (h2 : (o "tox -l").ok = false) :
    testBody o tmpdir s =
      ({ s with cwd := tmpdir },
        [Action.cmd (checkoutIndexCmd tmpdir), Action.chdir tmpdir,
          Action.cmd "tox -l"],
        .err (.cmdFail "tox -l")) := by
  simp [testBody, h1, h2]

theorem testBody_main (o : Oracle) (tmpdir : String) (s : PState)
    (h1 : (o (checkoutIndexCmd tmpdir)).ok = true)
    (h2 : (o "tox -l").ok = true) :
    testBody o tmpdir s =
      ({ s with cwd := tmpdir },
        Action.cmd (checkoutIndexCmd tmpdir) :: Action.chdir tmpdir ::
          Action.cmd "tox -l" :: (toxLoop o (toxEnvsOf o)).1,
        (toxLoop o (toxEnvsOf o)).2) := by
  rcases h3 : toxLoop o (toxEnvsOf o) with ⟨tr, v⟩
  simp [testBody, h1, h2, h3]

theorem toxEnvArg_checkoutIndex (t : String) :
    toxEnvArg (Action.cmd (checkoutIndexCmd t)) = none := rfl

theorem toxEnvArg_toxList : toxEnvArg (Action.cmd "tox -l") = none := rfl

theorem toxCmdsOf_map_tox (es : List String) :
    toxCmdsOf (es.map (fun e => Action.cmd ("tox -e " ++ e))) = es := by
  induction es with
  | nil => rfl
  | cons e rest ih =>
    simp only [List.map_cons, toxCmdsOf, List.filterMap_cons, toxEnvArg_tox]
    simpa [toxCmdsOf] using ih

/-- The `testBody` call made by `release_test`. -/
def testRun (o : Oracle) (db : Option String) (tmp : String) (s0 : PState) :
    PState × List Action × Outcome :=
  testBody o (slashed tmp)
    { dbState db s0 with fs := (dbState db s0).fs ++ [tmp] }

theorem release_test_state (o : Oracle) (db : Option String) (tmp : String)
    (s0 : PState) :
    (release_test o db tmp s0).state =
      { (testRun o db tmp s0).1 with
        cwd := s0.cwd
        fs := rmtreeFs (testRun o db tmp s0).1.fs (slashed tmp) } := by
  rcases ht : testBody o (slashed tmp)
    { dbState db s0 with fs := (dbState db s0).fs ++ [tmp] } with ⟨s3, tr, v⟩
  simp [release_test, testRun, ht, dbState_cwd]

theorem release_test_trace (o : Oracle) (db : Option String) (tmp : String)
    (s0 : PState) :
    (release_test o db tmp s0).trace =
      dbActs db ++ Action.mkdtemp tmp :: (testRun o db tmp s0).2.1 ++
        [Action.chdir s0.cwd, Action.rmtree (slashed tmp)] := by
  rcases ht : testBody o (slashed tmp)
    { dbState db s0 with fs := (dbState db s0).fs ++ [tmp] } with ⟨s3, tr, v⟩
  simp [release_test, testRun, ht, dbState_cwd]

theorem release_test_value (o : Oracle) (db : Option String) (tmp : String)
    (s0 : PState) :
    (release_test o db tmp s0).value = (testRun o db tmp s0).2.2 := by
  rcases ht : testBody o (slashed tmp)
    { dbState db s0 with fs := (dbState db s0).fs ++ [tmp] } with ⟨s3, tr, v⟩
  simp [release_test, testRun, ht]

/-- The test task restores the working directory on every path. -/
theorem release_test_cwd (o : Oracle) (db : Option String) (tmp : String)
    (s0 : PState) : (release_test o db tmp s0).state.cwd = s0.cwd := by
  rw [release_test_state]

/-- The test task leaves no directory equal to the temporary directory. -/
theorem release_test_fs (o : Oracle) (db : Option String) (tmp : String)
    (s0 : PState) :
    ∀ q ∈ (release_test o db tmp s0).state.fs, normDir q ≠ normDir tmp := by
  rw [release_test_state]
  intro q hq
  have := mem_rmtreeFs _ _ _ hq
  rwa [normDir_slashed] at this

/-- The test task's trace always ends with the cleanup of the `finally`
block: restore the directory, remove the temporary directory. -/
theorem release_test_trace_tail (o : Oracle) (db : Option String)
    (tmp : String) (s0 : PState) :
    ∃ pre, (release_test o db tmp s0).trace =
      pre ++ [Action.chdir s0.cwd, Action.rmtree (slashed tmp)] := by
  rw [release_test_trace]
  exact ⟨dbActs db ++ Action.mkdtemp tmp :: (testRun o db tmp s0).2.1, by simp⟩

/-- The environment after the test task: unchanged unless a non-empty
database URL was passed, in which case it is recorded. -/
theorem release_test_env (o : Oracle) (db : Option String) (tmp : String)
    (s0 : PState) :
    (release_test o db tmp s0).state.env = (dbState db s0).env := by
  rw [release_test_state]
  exact testBody_env o (slashed tmp) _

theorem toxCmdsOf_cons_none (a : Action) (tr : List Action)
    (h : toxEnvArg a = none) : toxCmdsOf (a :: tr) = toxCmdsOf tr := by
  simp [toxCmdsOf, List.filterMap_cons, h]

theorem toxEnvArg_chdir (d : String) : toxEnvArg (Action.chdir d) = none := rfl

theorem toxEnvArg_mkdtemp (d : String) :
    toxEnvArg (Action.mkdtemp d) = none := rfl

theorem toxCmdsOf_cleanup (d e : String) :
    toxCmdsOf [Action.chdir d, Action.rmtree e] = [] := rfl

theorem toxCmdsOf_release_test (o : Oracle) (db : Option String)
    (tmp : String) (s0 : PState) :
    toxCmdsOf (release_test o db tmp s0).trace =
      toxCmdsOf (testRun o db tmp s0).2.1 := by
  rw [release_test_trace, toxCmdsOf_append, toxCmdsOf_cleanup,
    toxCmdsOf_append, toxCmdsOf_dbActs db,
    toxCmdsOf_cons_none _ _ (toxEnvArg_mkdtemp tmp)]
  simp

theorem release_test_toxCmds (o : Oracle) (db : Option String) (tmp : String)
    (s0 : PState) :
    ∃ k, toxCmdsOf (release_test o db tmp s0).trace = (toxEnvsOf o).take k := by
  rw [toxCmdsOf_release_test]
  by_cases h1 : (o (checkoutIndexCmd (slashed tmp))).ok = true
  · by_cases h2 : (o "tox -l").ok = true
    · rw [testRun, testBody_main o (slashed tmp) _ h1 h2]
      rcases toxLoop_take o (toxEnvsOf o) with ⟨k, hk⟩
      refine ⟨k, ?_⟩
      show toxCmdsOf (Action.cmd (checkoutIndexCmd (slashed tmp)) ::
        Action.chdir (slashed tmp) :: Action.cmd "tox -l" ::
        (toxLoop o (toxEnvsOf o)).1) = _
      rw [toxCmdsOf_cons_none _ _ (toxEnvArg_checkoutIndex _),
        toxCmdsOf_cons_none _ _ (toxEnvArg_chdir _),
        toxCmdsOf_cons_none _ _ toxEnvArg_toxList]
      exact hk
    · have h2f : (o "tox -l").ok = false := by
        revert h2; cases (o "tox -l").ok <;> simp
      rw [testRun, testBody_toxl_fail o (slashed tmp) _ h1 h2f]
      refine ⟨0, ?_⟩
      show toxCmdsOf [Action.cmd (checkoutIndexCmd (slashed tmp)),
        Action.chdir (slashed tmp), Action.cmd "tox -l"] = _
      rw [toxCmdsOf_cons_none _ _ (toxEnvArg_checkoutIndex _),
        toxCmdsOf_cons_none _ _ (toxEnvArg_chdir _),
        toxCmdsOf_cons_none _ _ toxEnvArg_toxList]
      rfl
  · have h1f : (o (checkoutIndexCmd (slashed tmp))).ok = false := by
      revert h1; cases (o (checkoutIndexCmd (slashed tmp))).ok <;> simp
    rw [testRun, testBody_c1_fail o (slashed tmp) _ h1f]
    refine ⟨0, ?_⟩
    show toxCmdsOf [Action.cmd (checkoutIndexCmd (slashed tmp))] = _
    rw [toxCmdsOf_cons_none _ _ (toxEnvArg_checkoutIndex _)]
    rfl

/-- On a successful run the tox commands are exactly the listed
environments minus packaging, in order. -/
theorem release_test_toxCmds_ok (o : Oracle) (db : Option String)
    (tmp : String) (s0 : PState)
    (h : (release_test o db tmp s0).value = .ok) :
    toxCmdsOf (release_test o db tmp s0).trace = toxEnvsOf o := by
  rw [release_test_value] at h
  rw [toxCmdsOf_release_test]
  by_cases h1 : (o (checkoutIndexCmd (slashed tmp))).ok = true
  · by_cases h2 : (o "tox -l").ok = true
    · rw [testRun, testBody_main o (slashed tmp) _ h1 h2] at h ⊢
      have hloop : (toxLoop o (toxEnvsOf o)).2 = .ok := h
      show toxCmdsOf (Action.cmd (checkoutIndexCmd (slashed tmp)) ::
        Action.chdir (slashed tmp) :: Action.cmd "tox -l" ::
        (toxLoop o (toxEnvsOf o)).1) = _
      rw [toxCmdsOf_cons_none _ _ (toxEnvArg_checkoutIndex _),
        toxCmdsOf_cons_none _ _ (toxEnvArg_chdir _),
        toxCmdsOf_cons_none _ _ toxEnvArg_toxList,
        toxLoop_ok_trace o (toxEnvsOf o) hloop, toxCmdsOf_map_tox]
    · have h2f : (o "tox -l").ok = false := by
        revert h2; cases (o "tox -l").ok <;> simp
      rw [testRun, testBody_toxl_fail o (slashed tmp) _ h1 h2f] at h
      cases h
  · have h1f : (o (checkoutIndexCmd (slashed tmp))).ok = false := by
      revert h1; cases (o (checkoutIndexCmd (slashed tmp))).ok <;> simp
    rw [testRun, testBody_c1_fail o (slashed tmp) _ h1f] at h
    cases h

theorem bfalse {b : Bool} (h : ¬ b = true) : b = false := by
  cases b <;> simp_all

theorem cleanupOnly_pair (d e : String) :
    cleanupOnly [Action.chdir d, Action.rmtree e] := by
  intro a ha
  rcases List.mem_cons.mp ha with rfl | ha
  · exact Or.inl ⟨d, rfl⟩
  · rcases List.mem_singleton.mp ha with rfl
    exact Or.inr ⟨e, rfl⟩

theorem cmdsOk_dbActs (o : Oracle) (db : Option String) :
    cmdsOk o (dbActs db) := by
  intro c hc
  exact absurd hc (dbActs_no_cmd db c)

theorem cmdsOk_cleanup (o : Oracle) (d e : String) :
    cmdsOk o [Action.chdir d, Action.rmtree e] := by
  intro c hc
  rcases List.mem_cons.mp hc with h3 | hc
  · cases h3
  · rcases List.mem_singleton.mp hc with h3
    cases h3

theorem cmdsOk_test_shape (o : Oracle) (db : Option String) (tmp : String)
    (lp : List Action)
    (h1 : (o (checkoutIndexCmd (slashed tmp))).ok = true)
    (h2 : (o "tox -l").ok = true) (hlp : cmdsOk o lp) :
    cmdsOk o (dbActs db ++ Action.mkdtemp tmp ::
      (Action.cmd (checkoutIndexCmd (slashed tmp)) ::
        Action.chdir (slashed tmp) :: Action.cmd "tox -l" :: lp)) := by
  intro c hc
  rcases List.mem_append.mp hc with hc | hc
  · exact absurd hc (dbActs_no_cmd db c)
  · rcases List.mem_cons.mp hc with h3 | hc
    · cases h3
    · rcases List.mem_cons.mp hc with h3 | hc
      · cases h3; exact h1
      · rcases List.mem_cons.mp hc with h3 | hc
        · cases h3
        · rcases List.mem_cons.mp hc with h3 | hc
          · cases h3; exact h2
          · exact hlp c hc

/-- On a successful test run every invoked command succeeded. -/
theorem release_test_ok_cmdsOk (o : Oracle) (db : Option String)
    (tmp : String) (s0 : PState)
    (h : (release_test o db tmp s0).value = .ok) :
    cmdsOk o (release_test o db tmp s0).trace := by
  rw [release_test_value] at h
  rw [release_test_trace]
  by_cases h1 : (o (checkoutIndexCmd (slashed tmp))).ok = true
  · by_cases h2 : (o "tox -l").ok = true
    · rw [testRun, testBody_main o (slashed tmp) _ h1 h2] at h
      have hloop : (toxLoop o (toxEnvsOf o)).2 = .ok := h
      have hlc := toxLoop_ok_cmdsOk o (toxEnvsOf o) hloop
      refine cmdsOk_append o _ _ ?_ (cmdsOk_cleanup o _ _)
      have := cmdsOk_test_shape o db tmp (toxLoop o (toxEnvsOf o)).1 h1 h2 hlc
      rw [testRun, testBody_main o (slashed tmp) _ h1 h2]
      exact this
    · rw [testRun, testBody_toxl_fail o (slashed tmp) _ h1 (bfalse h2)] at h
      cases h
  · rw [testRun, testBody_c1_fail o (slashed tmp) _ (bfalse h1)] at h
    cases h

/-- A failing command aborts the test task: commands before it all
succeeded, and only cleanup follows it. -/
theorem release_test_failDecomp (o : Oracle) (db : Option String)
    (tmp : String) (s0 : PState) : failDecomp o (release_test o db tmp s0) := by
  intro c hc
  rw [release_test_value] at hc
  rw [release_test_trace]
  by_cases h1 : (o (checkoutIndexCmd (slashed tmp))).ok = true
  · by_cases h2 : (o "tox -l").ok = true
    · rw [testRun, testBody_main o (slashed tmp) _ h1 h2] at hc ⊢
      have hloop : (toxLoop o (toxEnvsOf o)).2 = .err (.cmdFail c) := hc
      rcases toxLoop_fail o (toxEnvsOf o) _ hloop with
        ⟨c2, pre, he, hco, htr, hpre⟩
      have hc2 : c2 = c := by
        injection he with h3
        exact h3.symm
      subst hc2
      refine ⟨dbActs db ++ Action.mkdtemp tmp ::
        (Action.cmd (checkoutIndexCmd (slashed tmp)) ::
          Action.chdir (slashed tmp) :: Action.cmd "tox -l" :: pre),
        [Action.chdir s0.cwd, Action.rmtree (slashed tmp)], ?_, hco, ?_, ?_⟩
      · rw [htr]
        simp
      · exact cmdsOk_test_shape o db tmp pre h1 h2 hpre
      · exact cleanupOnly_pair _ _
    · rw [testRun, testBody_toxl_fail o (slashed tmp) _ h1 (bfalse h2)]
        at hc ⊢
      have hcv : c = "tox -l" := by
        injection hc with h3
        injection h3 with h4
        exact h4.symm
      subst hcv
      refine ⟨dbActs db ++ [Action.mkdtemp tmp,
        Action.cmd (checkoutIndexCmd (slashed tmp)),
        Action.chdir (slashed tmp)],
        [Action.chdir s0.cwd, Action.rmtree (slashed tmp)], by simp,
        bfalse h2, ?_, cleanupOnly_pair _ _⟩
      intro c3 hc3
      rcases List.mem_append.mp hc3 with hc3 | hc3
      · exact absurd hc3 (dbActs_no_cmd db c3)
      · rcases List.mem_cons.mp hc3 with h3 | hc3
        · cases h3
        · rcases List.mem_cons.mp hc3 with h3 | hc3
          · cases h3; exact h1
          · rcases List.mem_singleton.mp hc3 with h3
            cases h3
  · rw [testRun, testBody_c1_fail o (slashed tmp) _ (bfalse h1)] at hc ⊢
    have hcv : c = checkoutIndexCmd (slashed tmp) := by
      injection hc with h3
      injection h3 with h4
      exact h4.symm
    subst hcv
    refine ⟨dbActs db ++ [Action.mkdtemp tmp],
      [Action.chdir s0.cwd, Action.rmtree (slashed tmp)], by simp,
      bfalse h1, ?_, cleanupOnly_pair _ _⟩
    intro c3 hc3
    rcases List.mem_append.mp hc3 with hc3 | hc3
    · exact absurd hc3 (dbActs_no_cmd db c3)
    · rcases List.mem_singleton.mp hc3 with h3
      cases h3

/-! ### Shape lemmas for the build task -/

/-- The branch-restore command of lines 171-174. -/
def branchCmd (o : Oracle) : String :=
  "git checkout " ++ pyStrip (o "git rev-parse --abbrev-ref HEAD").stdout

theorem buildTryBody_cBr_fail (o : Oracle) (distF : Nat → List String)
    (version tmpdir curdir : String) (s : PState)
    (h1 : (o "git rev-parse --abbrev-ref HEAD").ok = false) :
    buildTryBody o distF version tmpdir curdir s =
      (s, [Action.cmd "git rev-parse --abbrev-ref HEAD"],
        .err (.cmdFail "git rev-parse --abbrev-ref HEAD")) := by
  simp [buildTryBody, h1]

theorem buildTryBody_cCo_fail (o : Oracle) (distF : Nat → List String)
    (version tmpdir curdir : String) (s : PState)
    (h1 : (o "git rev-parse --abbrev-ref HEAD").ok = true)
    (h2 : (o ("git checkout v" ++ version)).ok = false) :
    buildTryBody o distF version tmpdir curdir s =
      (s, [Action.cmd "git rev-parse --abbrev-ref HEAD",
        Action.cmd ("git checkout v" ++ version)],
        .err (.cmdFail ("git checkout v" ++ version))) := by
  simp [buildTryBody, h1, h2]

theorem buildTryBody_cIdx_fail (o : Oracle) (distF : Nat → List String)
    (version tmpdir curdir : String) (s : PState)
    (h1 : (o "git rev-parse --abbrev-ref HEAD").ok = true)
    (h2 : (o ("git checkout v" ++ version)).ok = true)
    (h3 : (o (checkoutIndexCmd tmpdir)).ok = false) :
    buildTryBody o distF version tmpdir curdir s =
      (s, [Action.cmd "git rev-parse --abbrev-ref HEAD",
        Action.cmd ("git checkout v" ++ version),
        Action.cmd (checkoutIndexCmd tmpdir)],
        .err (.cmdFail (checkoutIndexCmd tmpdir))) := by
  simp [buildTryBody, h1, h2, h3]

theorem buildTryBody_cBack_fail (o : Oracle) (distF : Nat → List String)
    (version tmpdir curdir : String) (s : PState)
    (h1 : (o "git rev-parse --abbrev-ref HEAD").ok = true)
    (h2 : (o ("git checkout v" ++ version)).ok = true)
    (h3 : (o (checkoutIndexCmd tmpdir)).ok = true)
    (h4 : (o (branchCmd o)).ok = false) :
    buildTryBody o distF version tmpdir curdir s =
      (s, [Action.cmd "git rev-parse --abbrev-ref HEAD",
        Action.cmd ("git checkout v" ++ version),
        Action.cmd (checkoutIndexCmd tmpdir), Action.cmd (branchCmd o)],
        .err (.cmdFail (branchCmd o))) := by
  simp [buildTryBody, h1, h2, h3, branchCmd] at h4 ⊢
  simp [h4]

/-- The fixed head of the try-block trace once all four git commands
succeed. -/
def tryHead (o : Oracle) (version tmpdir : String) : List Action :=
  [Action.cmd "git rev-parse --abbrev-ref HEAD",
    Action.cmd ("git checkout v" ++ version),
    Action.cmd (checkoutIndexCmd tmpdir), Action.cmd (branchCmd o),
    Action.chdir tmpdir, Action.makedirs "dist"]

theorem buildTryBody_dist_fail (o : Oracle) (distF : Nat → List String)
    (version tmpdir curdir : String) (s : PState) (e : Err)
    (h1 : (o "git rev-parse --abbrev-ref HEAD").ok = true)
    (h2 : (o ("git checkout v" ++ version)).ok = true)
    (h3 : (o (checkoutIndexCmd tmpdir)).ok = true)
    (h4 : (o (branchCmd o)).ok = true)
    (h5 : (distLoop o distF ["sdist", "bdist_wheel"] 0).2 = .err e) :
    buildTryBody o distF version tmpdir curdir s =
      ({ s with cwd := tmpdir, fs := s.fs ++ [joinPath tmpdir "dist"] },
        tryHead o version tmpdir ++
          (distLoop o distF ["sdist", "bdist_wheel"] 0).1,
        .err e) := by
  rcases hd : distLoop o distF ["sdist", "bdist_wheel"] 0 with ⟨tr, v⟩
  rw [hd] at h5
  simp only at h5
  subst h5
  simp [buildTryBody, h1, h2, h3, h4, hd, tryHead, branchCmd]
  exact h4

theorem buildTryBody_ok (o : Oracle) (distF : Nat → List String)
    (version tmpdir curdir : String) (s : PState)
    (h1 : (o "git rev-parse --abbrev-ref HEAD").ok = true)
    (h2 : (o ("git checkout v" ++ version)).ok = true)
    (h3 : (o (checkoutIndexCmd tmpdir)).ok = true)
    (h4 : (o (branchCmd o)).ok = true)
    (h5 : (distLoop o distF ["sdist", "bdist_wheel"] 0).2 = .ok) :
    buildTryBody o distF version tmpdir curdir s =
      ({ s with
          cwd := curdir
          fs := rmtreeFs (rmtreeFs (s.fs ++ [joinPath tmpdir "dist"])
              (joinPath curdir "dist")) (joinPath tmpdir "dist") ++
            [joinPath curdir "dist"] },
        tryHead o version tmpdir ++
          (distLoop o distF ["sdist", "bdist_wheel"] 0).1 ++
          [Action.chdir curdir, Action.rmtree (joinPath curdir "dist"),
            Action.moveDir (joinPath tmpdir "dist") (joinPath curdir "dist")],
        .ok) := by
  rcases hd : distLoop o distF ["sdist", "bdist_wheel"] 0 with ⟨tr, v⟩
  rw [hd] at h5
  simp only at h5
  subst h5
  simp [buildTryBody, h1, h2, h3, h4, hd, tryHead, branchCmd]
  exact h4

theorem buildDevPhase_state (o : Oracle) (sd series : String) (n : Nat)
    (sF : PState) (trF : List Action) :
    (buildDevPhase o sd series n sF trF).state = sF := by
  unfold buildDevPhase
  cases hnv : pyNormParts (joinDot [series, pyStr (n + 1)]) with
  | none => rfl
  | some nv =>
    by_cases hA : (o gitAddCmd).ok = true
    · by_cases hC : (o commitDevCmd).ok = true <;> simp [hA, hC]
    · simp [hA]

theorem buildDevPhase_trace_suffix (o : Oracle) (sd series : String) (n : Nat)
    (sF : PState) (trF : List Action) :
    ∃ suf, (buildDevPhase o sd series n sF trF).trace = trF ++ suf := by
  cases hnv : pyNormParts (joinDot [series, pyStr (n + 1)]) with
  | none =>
    refine ⟨[], ?_⟩
    simp only [buildDevPhase, hnv]
    simp
  | some nv =>
    simp only [buildDevPhase, hnv]
    by_cases hA : (o gitAddCmd).ok = true
    · by_cases hC : (o commitDevCmd).ok = true
      · rw [if_pos hA, if_pos hC]
        exact ⟨_, rfl⟩
      · rw [if_pos hA, if_neg hC]
        exact ⟨_, rfl⟩
    · rw [if_neg hA]
      exact ⟨_, rfl⟩

theorem buildDevPhase_fail (o : Oracle) (sd series : String) (n : Nat)
    (sF : PState) (trF : List Action) (c : String)
    (h : (buildDevPhase o sd series n sF trF).value = .err (.cmdFail c))
    (htrF : cmdsOk o trF) :
    ∃ pre, (buildDevPhase o sd series n sF trF).trace =
      pre ++ [Action.cmd c] ∧ (o c).ok = false ∧ cmdsOk o pre := by
  cases hnv : pyNormParts (joinDot [series, pyStr (n + 1)]) with
  | none =>
    simp only [buildDevPhase, hnv] at h
    cases h
  | some nv =>
    simp only [buildDevPhase, hnv] at h ⊢
    by_cases hA : (o gitAddCmd).ok = true
    · by_cases hC : (o commitDevCmd).ok = true
      · rw [if_pos hA, if_pos hC] at h
        cases h
      · rw [if_pos hA, if_neg hC] at h ⊢
        have h2 : Outcome.err (Err.cmdFail commitDevCmd) =
            Outcome.err (Err.cmdFail c) := h
        have hcv : c = commitDevCmd := by
          injection h2 with h3
          injection h3 with h4
          exact h4.symm
        subst hcv
        refine ⟨trF ++ [Action.writeFile (aboutPath sd)
          (aboutContent (nv ++ ".dev0") "<development>"),
          Action.cmd gitAddCmd], ?_, bfalse hC, ?_⟩
        · show trF ++ [Action.writeFile (aboutPath sd)
            (aboutContent (nv ++ ".dev0") "<development>"),
            Action.cmd gitAddCmd, Action.cmd commitDevCmd] = _
          simp
        · refine cmdsOk_append o _ _ htrF ?_
          intro c3 hc3
          rcases List.mem_cons.mp hc3 with h3 | hc3
          · cases h3
          · rcases List.mem_singleton.mp hc3 with h3
            cases h3
            exact hA
    · rw [if_neg hA] at h ⊢
      have h2 : Outcome.err (Err.cmdFail gitAddCmd) =
          Outcome.err (Err.cmdFail c) := h
      have hcv : c = gitAddCmd := by
        injection h2 with h3
        injection h3 with h4
        exact h4.symm
      subst hcv
      refine ⟨trF ++ [Action.writeFile (aboutPath sd)
        (aboutContent (nv ++ ".dev0") "<development>")], ?_, bfalse hA, ?_⟩
      · show trF ++ [Action.writeFile (aboutPath sd)
          (aboutContent (nv ++ ".dev0") "<development>"),
          Action.cmd gitAddCmd] = _
        simp
      · refine cmdsOk_append o _ _ htrF ?_
        intro c3 hc3
        rcases List.mem_singleton.mp hc3 with h3
        cases h3

theorem buildDevPhase_ok (o : Oracle) (sd series : String) (n : Nat)
    (sF : PState) (trF : List Action)
    (h : (buildDevPhase o sd series n sF trF).value = .ok) :
    ∃ nv, pyNormParts (joinDot [series, pyStr (n + 1)]) = some nv ∧
      (buildDevPhase o sd series n sF trF).trace = trF ++
        [Action.writeFile (aboutPath sd)
          (aboutContent (nv ++ ".dev0") "<development>"),
         Action.cmd gitAddCmd, Action.cmd commitDevCmd] ∧
      (o gitAddCmd).ok = true ∧ (o commitDevCmd).ok = true := by
  cases hnv : pyNormParts (joinDot [series, pyStr (n + 1)]) with
  | none =>
    simp only [buildDevPhase, hnv] at h
    cases h
  | some nv =>
    simp only [buildDevPhase, hnv] at h ⊢
    by_cases hA : (o gitAddCmd).ok = true
    · by_cases hC : (o commitDevCmd).ok = true
      · rw [if_pos hA, if_pos hC]
        exact ⟨nv, rfl, rfl, hA, hC⟩
      · rw [if_pos hA, if_neg hC] at h
        cases h
    · rw [if_neg hA] at h
      cases h

/-- Line 82: the build tag is the first seven characters of the
`git rev-parse HEAD` output. -/
def buildTagOf (o : Oracle) : String :=
  pySlice (o "git rev-parse HEAD").stdout 7

/-- The release version string produced by lines 72-78 for clock `y.m`
and counter `n`. -/
def relVersion (y m n : Nat) : String :=
  seriesStr y m ++ "." ++ pyStr n

/-- The actions of lines 72-147 once every command succeeds. -/
def preTrace (o : Oracle) (y m n : Nat) (sd : String) : List Action :=
  [Action.cmd (tagListCmd (seriesStr y m)), Action.cmd "git rev-parse HEAD",
    Action.writeFile (aboutPath sd)
      (aboutContent (relVersion y m n) (buildTagOf o)),
    Action.cmd gitAddCmd,
    Action.cmd (commitReleaseCmd (relVersion y m n) (buildTagOf o)),
    Action.cmd (tagSignCmd (relVersion y m n) (buildTagOf o))]

/-- The `buildTryBody` call made by `release_build`. -/
def buildRun (o : Oracle) (distF : Nat → List String) (y m n : Nat)
    (tmp : String) (s0 : PState) : PState × List Action × Outcome :=
  buildTryBody o distF (relVersion y m n) (slashed tmp) s0.cwd
    { s0 with fs := s0.fs ++ [tmp] }

/-- The state after `release_build`'s `finally` block. -/
def buildFinState (o : Oracle) (distF : Nat → List String) (y m n : Nat)
    (tmp : String) (s0 : PState) : PState :=
  { (buildRun o distF y m n tmp s0).1 with
    cwd := s0.cwd
    fs := rmtreeFs (buildRun o distF y m n tmp s0).1.fs (slashed tmp) }

/-- The trace up to and including `release_build`'s `finally` block. -/
def buildFinTrace (o : Oracle) (distF : Nat → List String) (y m n : Nat)
    (tmp sd : String) (s0 : PState) : List Action :=
  preTrace o y m n sd ++ Action.mkdtemp tmp ::
    (buildRun o distF y m n tmp s0).2.1 ++
    [Action.chdir s0.cwd, Action.rmtree (slashed tmp)]

theorem release_build_tagL_fail (o : Oracle) (distF : Nat → List String)
    (y m : Nat) (tmp sd : String) (s0 : PState)
    (hT : (o (tagListCmd (seriesStr y m))).ok = false) :
    release_build o distF y m tmp sd s0 =
      { state := s0, trace := [Action.cmd (tagListCmd (seriesStr y m))],
        value := .err (.cmdFail (tagListCmd (seriesStr y m))) } := by
  simp [release_build, version_series_eq, hT]

theorem release_build_parse_fail (o : Oracle) (distF : Nat → List String)
    (y m : Nat) (tmp sd : String) (s0 : PState)
    (hT : (o (tagListCmd (seriesStr y m))).ok = true)
    (hN : version_num? (o (tagListCmd (seriesStr y m))).stdout = none) :
    release_build o distF y m tmp sd s0 =
      { state := s0, trace := [Action.cmd (tagListCmd (seriesStr y m))],
        value := .err .parseFail } := by
  simp [release_build, version_series_eq, hT, hN]

theorem release_build_rev_fail (o : Oracle) (distF : Nat → List String)
    (y m n : Nat) (tmp sd : String) (s0 : PState)
    (hT : (o (tagListCmd (seriesStr y m))).ok = true)
    (hN : version_num? (o (tagListCmd (seriesStr y m))).stdout = some n)
    (hR : (o "git rev-parse HEAD").ok = false) :
    release_build o distF y m tmp sd s0 =
      { state := s0, trace := [Action.cmd (tagListCmd (seriesStr y m)),
          Action.cmd "git rev-parse HEAD"],
        value := .err (.cmdFail "git rev-parse HEAD") } := by
  simp [release_build, version_series_eq, hT, hN, release_version_eq, hR]

theorem release_build_add_fail (o : Oracle) (distF : Nat → List String)
    (y m n : Nat) (tmp sd : String) (s0 : PState)
    (hT : (o (tagListCmd (seriesStr y m))).ok = true)
    (hN : version_num? (o (tagListCmd (seriesStr y m))).stdout = some n)
    (hR : (o "git rev-parse HEAD").ok = true)
    (hA : (o gitAddCmd).ok = false) :
    release_build o distF y m tmp sd s0 =
      { state := s0, trace := [Action.cmd (tagListCmd (seriesStr y m)),
          Action.cmd "git rev-parse HEAD",
          Action.writeFile (aboutPath sd)
            (aboutContent (relVersion y m n) (buildTagOf o)),
          Action.cmd gitAddCmd],
        value := .err (.cmdFail gitAddCmd) } := by
  simp [release_build, version_series_eq, hT, hN, release_version_eq, hR, hA,
    relVersion, buildTagOf]

theorem release_build_cm_fail (o : Oracle) (distF : Nat → List String)
    (y m n : Nat) (tmp sd : String) (s0 : PState)
    (hT : (o (tagListCmd (seriesStr y m))).ok = true)
    (hN : version_num? (o (tagListCmd (seriesStr y m))).stdout = some n)
    (hR : (o "git rev-parse HEAD").ok = true)
    (hA : (o gitAddCmd).ok = true)
    (hC : (o (commitReleaseCmd (relVersion y m n) (buildTagOf o))).ok
      = false) :
    release_build o distF y m tmp sd s0 =
      { state := s0, trace := [Action.cmd (tagListCmd (seriesStr y m)),
          Action.cmd "git rev-parse HEAD",
          Action.writeFile (aboutPath sd)
            (aboutContent (relVersion y m n) (buildTagOf o)),
          Action.cmd gitAddCmd,
          Action.cmd (commitReleaseCmd (relVersion y m n) (buildTagOf o))],
        value := .err (.cmdFail
          (commitReleaseCmd (relVersion y m n) (buildTagOf o))) } := by
  rw [relVersion, buildTagOf] at hC
  simp [release_build, version_series_eq, hT, hN, release_version_eq, hR, hA,
    hC, relVersion, buildTagOf]

theorem release_build_ts_fail (o : Oracle) (distF : Nat → List String)
    (y m n : Nat) (tmp sd : String) (s0 : PState)
    (hT : (o (tagListCmd (seriesStr y m))).ok = true)
    (hN : version_num? (o (tagListCmd (seriesStr y m))).stdout = some n)
    (hR : (o "git rev-parse HEAD").ok = true)
    (hA : (o gitAddCmd).ok = true)
    (hC : (o (commitReleaseCmd (relVersion y m n) (buildTagOf o))).ok = true)
    (hS : (o (tagSignCmd (relVersion y m n) (buildTagOf o))).ok = false) :
    release_build o distF y m tmp sd s0 =
      { state := s0, trace := [Action.cmd (tagListCmd (seriesStr y m)),
          Action.cmd "git rev-parse HEAD",
          Action.writeFile (aboutPath sd)
            (aboutContent (relVersion y m n) (buildTagOf o)),
          Action.cmd gitAddCmd,
          Action.cmd (commitReleaseCmd (relVersion y m n) (buildTagOf o)),
          Action.cmd (tagSignCmd (relVersion y m n) (buildTagOf o))],
        value := .err (.cmdFail
          (tagSignCmd (relVersion y m n) (buildTagOf o))) } := by
  rw [relVersion, buildTagOf] at hC hS
  simp [release_build, version_series_eq, hT, hN, release_version_eq, hR, hA,
    hC, hS, relVersion, buildTagOf]

theorem release_build_main_err (o : Oracle) (distF : Nat → List String)
    (y m n : Nat) (tmp sd : String) (s0 : PState) (e : Err)
    (hT : (o (tagListCmd (seriesStr y m))).ok = true)
    (hN : version_num? (o (tagListCmd (seriesStr y m))).stdout = some n)
    (hR : (o "git rev-parse HEAD").ok = true)
    (hA : (o gitAddCmd).ok = true)
    (hC : (o (commitReleaseCmd (relVersion y m n) (buildTagOf o))).ok = true)
    (hS : (o (tagSignCmd (relVersion y m n) (buildTagOf o))).ok = true)
    (hB : (buildRun o distF y m n tmp s0).2.2 = .err e) :
    release_build o distF y m tmp sd s0 =
      { state := buildFinState o distF y m n tmp s0,
        trace := buildFinTrace o distF y m n tmp sd s0,
        value := .err e } := by
  rw [relVersion, buildTagOf] at hC hS
  rcases hb : buildTryBody o distF (relVersion y m n) (slashed tmp) s0.cwd
    { s0 with fs := s0.fs ++ [tmp] } with ⟨sB, trB, vB⟩
  have hv : vB = .err e := by
    rw [buildRun, hb] at hB
    exact hB
  subst hv
  rw [relVersion] at hb
  simp [release_build, version_series_eq, hT, hN, release_version_eq, hR, hA,
    hC, hS, hb, buildFinState, buildFinTrace, buildRun, preTrace, relVersion,
    buildTagOf]

theorem release_build_main_ok (o : Oracle) (distF : Nat → List String)
    (y m n : Nat) (tmp sd : String) (s0 : PState)
    (hT : (o (tagListCmd (seriesStr y m))).ok = true)
    (hN : version_num? (o (tagListCmd (seriesStr y m))).stdout = some n)
    (hR : (o "git rev-parse HEAD").ok = true)
    (hA : (o gitAddCmd).ok = true)
    (hC : (o (commitReleaseCmd (relVersion y m n) (buildTagOf o))).ok = true)
    (hS : (o (tagSignCmd (relVersion y m n) (buildTagOf o))).ok = true)
    (hB : (buildRun o distF y m n tmp s0).2.2 = .ok) :
    release_build o distF y m tmp sd s0 =
      buildDevPhase o sd (seriesStr y m) n
        (buildFinState o distF y m n tmp s0)
        (buildFinTrace o distF y m n tmp sd s0) := by
  rw [relVersion, buildTagOf] at hC hS
  rcases hb : buildTryBody o distF (relVersion y m n) (slashed tmp) s0.cwd
    { s0 with fs := s0.fs ++ [tmp] } with ⟨sB, trB, vB⟩
  have hv : vB = .ok := by
    rw [buildRun, hb] at hB
    exact hB
  subst hv
  rw [relVersion] at hb
  simp [release_build, version_series_eq, hT, hN, release_version_eq, hR, hA,
    hC, hS, hb, buildFinState, buildFinTrace, buildRun, preTrace, relVersion,
    buildTagOf]

theorem cmdsOk_tryHead (o : Oracle) (version tmpdir : String)
    (h1 : (o "git rev-parse --abbrev-ref HEAD").ok = true)
    (h2 : (o ("git checkout v" ++ version)).ok = true)
    (h3 : (o (checkoutIndexCmd tmpdir)).ok = true)
    (h4 : (o (branchCmd o)).ok = true) :
    cmdsOk o (tryHead o version tmpdir) := by
  intro c hc
  simp only [tryHead, List.mem_cons] at hc
  rcases hc with h | h | h | h | h | h | h
  · cases h; exact h1
  · cases h; exact h2
  · cases h; exact h3
  · cases h; exact h4
  · cases h
  · cases h
  · simp at h

theorem buildTryBody_fail (o : Oracle) (distF : Nat → List String)
    (version tmpdir curdir : String) (s : PState) (c : String)
    (h : (buildTryBody o distF version tmpdir curdir s).2.2 =
      .err (.cmdFail c)) :
    ∃ pre, (buildTryBody o distF version tmpdir curdir s).2.1 =
      pre ++ [Action.cmd c] ∧ (o c).ok = false ∧ cmdsOk o pre := by
  by_cases h1 : (o "git rev-parse --abbrev-ref HEAD").ok = true
  · by_cases h2 : (o ("git checkout v" ++ version)).ok = true
    · by_cases h3 : (o (checkoutIndexCmd tmpdir)).ok = true
      · by_cases h4 : (o (branchCmd o)).ok = true
        · cases hB : (distLoop o distF ["sdist", "bdist_wheel"] 0).2 with
          | ok =>
            rw [buildTryBody_ok o distF version tmpdir curdir s
              h1 h2 h3 h4 hB] at h
            cases h
          | err e =>
            rw [buildTryBody_dist_fail o distF version tmpdir curdir s e
              h1 h2 h3 h4 hB] at h ⊢
            have h5 : Outcome.err e = Outcome.err (Err.cmdFail c) := h
            have he : e = .cmdFail c := by injection h5
            subst he
            rcases distLoop_fail_cmd o distF ["sdist", "bdist_wheel"] 0 c hB
              with ⟨pre, hco, htr, hpre⟩
            refine ⟨tryHead o version tmpdir ++ pre, ?_, hco, ?_⟩
            · show tryHead o version tmpdir ++
                (distLoop o distF ["sdist", "bdist_wheel"] 0).1 = _
              rw [htr]
              simp
            · exact cmdsOk_append o _ _
                (cmdsOk_tryHead o version tmpdir h1 h2 h3 h4) hpre
        · rw [buildTryBody_cBack_fail o distF version tmpdir curdir s
            h1 h2 h3 (bfalse h4)] at h ⊢
          have h5 : Outcome.err (Err.cmdFail (branchCmd o)) =
              Outcome.err (Err.cmdFail c) := h
          have he : c = branchCmd o := by
            injection h5 with h6
            injection h6 with h7
            exact h7.symm
          subst he
          refine ⟨[Action.cmd "git rev-parse --abbrev-ref HEAD",
            Action.cmd ("git checkout v" ++ version),
            Action.cmd (checkoutIndexCmd tmpdir)], rfl, bfalse h4, ?_⟩
          intro c3 hc3
          rcases List.mem_cons.mp hc3 with h6 | hc3
          · cases h6; exact h1
          · rcases List.mem_cons.mp hc3 with h6 | hc3
            · cases h6; exact h2
            · rcases List.mem_singleton.mp hc3 with h6
              cases h6
              exact h3
      · rw [buildTryBody_cIdx_fail o distF version tmpdir curdir s
          h1 h2 (bfalse h3)] at h ⊢
        have h5 : Outcome.err (Err.cmdFail (checkoutIndexCmd tmpdir)) =
            Outcome.err (Err.cmdFail c) := h
        have he : c = checkoutIndexCmd tmpdir := by
          injection h5 with h6
          injection h6 with h7
          exact h7.symm
        subst he
        refine ⟨[Action.cmd "git rev-parse --abbrev-ref HEAD",
          Action.cmd ("git checkout v" ++ version)], rfl, bfalse h3, ?_⟩
        intro c3 hc3
        rcases List.mem_cons.mp hc3 with h6 | hc3
        · cases h6; exact h1
        · rcases List.mem_singleton.mp hc3 with h6
          cases h6
          exact h2
    · rw [buildTryBody_cCo_fail o distF version tmpdir curdir s
        h1 (bfalse h2)] at h ⊢
      have h5 : Outcome.err (Err.cmdFail ("git checkout v" ++ version)) =
          Outcome.err (Err.cmdFail c) := h
      have he : c = "git checkout v" ++ version := by
        injection h5 with h6
        injection h6 with h7
        exact h7.symm
      subst he
      refine ⟨[Action.cmd "git rev-parse --abbrev-ref HEAD"], rfl,
        bfalse h2, ?_⟩
      intro c3 hc3
      rcases List.mem_singleton.mp hc3 with h6
      cases h6
      exact h1
  · rw [buildTryBody_cBr_fail o distF version tmpdir curdir s
      (bfalse h1)] at h ⊢
    have h5 : Outcome.err (Err.cmdFail "git rev-parse --abbrev-ref HEAD") =
        Outcome.err (Err.cmdFail c) := h
    have he : c = "git rev-parse --abbrev-ref HEAD" := by
      injection h5 with h6
      injection h6 with h7
      exact h7.symm
    subst he
    exact ⟨[], rfl, bfalse h1, cmdsOk_nil o⟩

theorem buildTryBody_ok_cmdsOk (o : Oracle) (distF : Nat → List String)
    (version tmpdir curdir : String) (s : PState)
    (h : (buildTryBody o distF version tmpdir curdir s).2.2 = .ok) :
    cmdsOk o (buildTryBody o distF version tmpdir curdir s).2.1 := by
  by_cases h1 : (o "git rev-parse --abbrev-ref HEAD").ok = true
  · by_cases h2 : (o ("git checkout v" ++ version)).ok = true
    · by_cases h3 : (o (checkoutIndexCmd tmpdir)).ok = true
      · by_cases h4 : (o (branchCmd o)).ok = true
        · cases hB : (distLoop o distF ["sdist", "bdist_wheel"] 0).2 with
          | ok =>
            rw [buildTryBody_ok o distF version tmpdir curdir s
              h1 h2 h3 h4 hB]
            show cmdsOk o (tryHead o version tmpdir ++
              (distLoop o distF ["sdist", "bdist_wheel"] 0).1 ++ _)
            refine cmdsOk_append o _ _ (cmdsOk_append o _ _
              (cmdsOk_tryHead o version tmpdir h1 h2 h3 h4)
              (distLoop_ok_cmdsOk o distF _ 0 hB)) ?_
            intro c3 hc3
            rcases List.mem_cons.mp hc3 with h6 | hc3
            · cases h6
            · rcases List.mem_cons.mp hc3 with h6 | hc3
              · cases h6
              · rcases List.mem_singleton.mp hc3 with h6
                cases h6
          | err e =>
            rw [buildTryBody_dist_fail o distF version tmpdir curdir s e
              h1 h2 h3 h4 hB] at h
            cases h
        · rw [buildTryBody_cBack_fail o distF version tmpdir curdir s
            h1 h2 h3 (bfalse h4)] at h
          cases h
      · rw [buildTryBody_cIdx_fail o distF version tmpdir curdir s
          h1 h2 (bfalse h3)] at h
        cases h
    · rw [buildTryBody_cCo_fail o distF version tmpdir curdir s
        h1 (bfalse h2)] at h
      cases h
  · rw [buildTryBody_cBr_fail o distF version tmpdir curdir s
      (bfalse h1)] at h
    cases h

/-! ### Build-task properties -/

theorem release_build_cwd (o : Oracle) (distF : Nat → List String)
    (y m : Nat) (tmp sd : String) (s0 : PState) :
    (release_build o distF y m tmp sd s0).state.cwd = s0.cwd := by
  by_cases hT : (o (tagListCmd (seriesStr y m))).ok = true
  · cases hN : version_num? (o (tagListCmd (seriesStr y m))).stdout with
    | none => rw [release_build_parse_fail o distF y m tmp sd s0 hT hN]
    | some n =>
      by_cases hR : (o "git rev-parse HEAD").ok = true
      · by_cases hA : (o gitAddCmd).ok = true
        · by_cases hC : (o (commitReleaseCmd (relVersion y m n)
            (buildTagOf o))).ok = true
          · by_cases hS : (o (tagSignCmd (relVersion y m n)
              (buildTagOf o))).ok = true
            · cases hB : (buildRun o distF y m n tmp s0).2.2 with
              | ok =>
                rw [release_build_main_ok o distF y m n tmp sd s0
                  hT hN hR hA hC hS hB, buildDevPhase_state]
                rfl
              | err e =>
                rw [release_build_main_err o distF y m n tmp sd s0 e
                  hT hN hR hA hC hS hB]
                rfl
            · rw [release_build_ts_fail o distF y m n tmp sd s0
                hT hN hR hA hC (bfalse hS)]
          · rw [release_build_cm_fail o distF y m n tmp sd s0
              hT hN hR hA (bfalse hC)]
        · rw [release_build_add_fail o distF y m n tmp sd s0
            hT hN hR (bfalse hA)]
      · rw [release_build_rev_fail o distF y m n tmp sd s0 hT hN (bfalse hR)]
  · rw [release_build_tagL_fail o distF y m tmp sd s0 (bfalse hT)]

theorem release_build_env (o : Oracle) (distF : Nat → List String)
    (y m : Nat) (tmp sd : String) (s0 : PState) :
    (release_build o distF y m tmp sd s0).state.env = s0.env := by
  by_cases hT : (o (tagListCmd (seriesStr y m))).ok = true
  · cases hN : version_num? (o (tagListCmd (seriesStr y m))).stdout with
    | none => rw [release_build_parse_fail o distF y m tmp sd s0 hT hN]
    | some n =>
      by_cases hR : (o "git rev-parse HEAD").ok = true
      · by_cases hA : (o gitAddCmd).ok = true
        · by_cases hC : (o (commitReleaseCmd (relVersion y m n)
            (buildTagOf o))).ok = true
          · by_cases hS : (o (tagSignCmd (relVersion y m n)
              (buildTagOf o))).ok = true
            · cases hB : (buildRun o distF y m n tmp s0).2.2 with
              | ok =>
                rw [release_build_main_ok o distF y m n tmp sd s0
                  hT hN hR hA hC hS hB, buildDevPhase_state]
                exact buildTryBody_env o distF _ _ _ _
              | err e =>
                rw [release_build_main_err o distF y m n tmp sd s0 e
                  hT hN hR hA hC hS hB]
                exact buildTryBody_env o distF _ _ _ _
            · rw [release_build_ts_fail o distF y m n tmp sd s0
                hT hN hR hA hC (bfalse hS)]
          · rw [release_build_cm_fail o distF y m n tmp sd s0
              hT hN hR hA (bfalse hC)]
        · rw [release_build_add_fail o distF y m n tmp sd s0
            hT hN hR (bfalse hA)]
      · rw [release_build_rev_fail o distF y m n tmp sd s0 hT hN (bfalse hR)]
  · rw [release_build_tagL_fail o distF y m tmp sd s0 (bfalse hT)]

theorem release_build_fs (o : Oracle) (distF : Nat → List String)
    (y m : Nat) (tmp sd : String) (s0 : PState)
    (hfresh : ∀ q ∈ s0.fs, normDir q ≠ normDir tmp) :
    ∀ q ∈ (release_build o distF y m tmp sd s0).state.fs,
      normDir q ≠ normDir tmp := by
  have hmain : ∀ n, ∀ q ∈ (buildFinState o distF y m n tmp s0).fs,
      normDir q ≠ normDir tmp := by
    intro n q hq
    have := mem_rmtreeFs _ _ _ hq
    rwa [normDir_slashed] at this
  by_cases hT : (o (tagListCmd (seriesStr y m))).ok = true
  · cases hN : version_num? (o (tagListCmd (seriesStr y m))).stdout with
    | none =>
      rw [release_build_parse_fail o distF y m tmp sd s0 hT hN]
      exact hfresh
    | some n =>
      by_cases hR : (o "git rev-parse HEAD").ok = true
      · by_cases hA : (o gitAddCmd).ok = true
        · by_cases hC : (o (commitReleaseCmd (relVersion y m n)
            (buildTagOf o))).ok = true
          · by_cases hS : (o (tagSignCmd (relVersion y m n)
              (buildTagOf o))).ok = true
            · cases hB : (buildRun o distF y m n tmp s0).2.2 with
              | ok =>
                rw [release_build_main_ok o distF y m n tmp sd s0
                  hT hN hR hA hC hS hB, buildDevPhase_state]
                exact hmain n
              | err e =>
                rw [release_build_main_err o distF y m n tmp sd s0 e
                  hT hN hR hA hC hS hB]
                exact hmain n
            · rw [release_build_ts_fail o distF y m n tmp sd s0
                hT hN hR hA hC (bfalse hS)]
              exact hfresh
          · rw [release_build_cm_fail o distF y m n tmp sd s0
              hT hN hR hA (bfalse hC)]
            exact hfresh
        · rw [release_build_add_fail o distF y m n tmp sd s0
            hT hN hR (bfalse hA)]
          exact hfresh
      · rw [release_build_rev_fail o distF y m n tmp sd s0 hT hN (bfalse hR)]
        exact hfresh
  · rw [release_build_tagL_fail o distF y m tmp sd s0 (bfalse hT)]
    exact hfresh

/-- Whenever the build task creates its temporary directory, the trace
also removes it. -/
theorem release_build_mkdtemp_rmtree (o : Oracle) (distF : Nat → List String)
    (y m : Nat) (tmp sd : String) (s0 : PState)
    (h : Action.mkdtemp tmp ∈ (release_build o distF y m tmp sd s0).trace) :
    Action.rmtree (slashed tmp) ∈ (release_build o distF y m tmp sd s0).trace
    := by
  have hmain : ∀ n, Action.rmtree (slashed tmp) ∈
      buildFinTrace o distF y m n tmp sd s0 := by
    intro n
    simp [buildFinTrace]
  by_cases hT : (o (tagListCmd (seriesStr y m))).ok = true
  · cases hN : version_num? (o (tagListCmd (seriesStr y m))).stdout with
    | none =>
      rw [release_build_parse_fail o distF y m tmp sd s0 hT hN] at h
      simp at h
    | some n =>
      by_cases hR : (o "git rev-parse HEAD").ok = true
      · by_cases hA : (o gitAddCmd).ok = true
        · by_cases hC : (o (commitReleaseCmd (relVersion y m n)
            (buildTagOf o))).ok = true
          · by_cases hS : (o (tagSignCmd (relVersion y m n)
              (buildTagOf o))).ok = true
            · cases hB : (buildRun o distF y m n tmp s0).2.2 with
              | ok =>
                rw [release_build_main_ok o distF y m n tmp sd s0
                  hT hN hR hA hC hS hB]
                rcases buildDevPhase_trace_suffix o sd (seriesStr y m) n
                  (buildFinState o distF y m n tmp s0)
                  (buildFinTrace o distF y m n tmp sd s0) with ⟨suf, hsuf⟩
                rw [hsuf]
                exact List.mem_append.mpr (Or.inl (hmain n))
              | err e =>
                rw [release_build_main_err o distF y m n tmp sd s0 e
                  hT hN hR hA hC hS hB]
                exact hmain n
            · rw [release_build_ts_fail o distF y m n tmp sd s0
                hT hN hR hA hC (bfalse hS)] at h
              simp at h
          · rw [release_build_cm_fail o distF y m n tmp sd s0
              hT hN hR hA (bfalse hC)] at h
            simp at h
        · rw [release_build_add_fail o distF y m n tmp sd s0
            hT hN hR (bfalse hA)] at h
          simp at h
      · rw [release_build_rev_fail o distF y m n tmp sd s0
          hT hN (bfalse hR)] at h
        simp at h
  · rw [release_build_tagL_fail o distF y m tmp sd s0 (bfalse hT)] at h
    simp at h

theorem cmdsOk_preTrace (o : Oracle) (y m n : Nat) (sd : String)
    (hT : (o (tagListCmd (seriesStr y m))).ok = true)
    (hR : (o "git rev-parse HEAD").ok = true)
    (hA : (o gitAddCmd).ok = true)
    (hC : (o (commitReleaseCmd (relVersion y m n) (buildTagOf o))).ok = true)
    (hS : (o (tagSignCmd (relVersion y m n) (buildTagOf o))).ok = true) :
    cmdsOk o (preTrace o y m n sd) := by
  intro c hc
  simp only [preTrace, List.mem_cons] at hc
  rcases hc with h | h | h | h | h | h | h
  · cases h; exact hT
  · cases h; exact hR
  · cases h
  · cases h; exact hA
  · cases h; exact hC
  · cases h; exact hS
  · simp at h

theorem cmdsOk_buildFinTrace (o : Oracle) (distF : Nat → List String)
    (y m n : Nat) (tmp sd : String) (s0 : PState)
    (hT : (o (tagListCmd (seriesStr y m))).ok = true)
    (hR : (o "git rev-parse HEAD").ok = true)
    (hA : (o gitAddCmd).ok = true)
    (hC : (o (commitReleaseCmd (relVersion y m n) (buildTagOf o))).ok = true)
    (hS : (o (tagSignCmd (relVersion y m n) (buildTagOf o))).ok = true)
    (hB : (buildRun o distF y m n tmp s0).2.2 = .ok) :
    cmdsOk o (buildFinTrace o distF y m n tmp sd s0) := by
  rw [buildFinTrace]
  refine cmdsOk_append o _ _ ?_ (cmdsOk_cleanup o _ _)
  intro c hc
  rcases List.mem_append.mp hc with hc | hc
  · exact cmdsOk_preTrace o y m n sd hT hR hA hC hS c hc
  · rcases List.mem_cons.mp hc with h | hc
    · cases h
    · exact buildTryBody_ok_cmdsOk o distF (relVersion y m n) (slashed tmp)
        s0.cwd { s0 with fs := s0.fs ++ [tmp] } hB c hc

/-- On a successful build run every invoked command succeeded. -/
theorem release_build_ok_cmdsOk (o : Oracle) (distF : Nat → List String)
    (y m : Nat) (tmp sd : String) (s0 : PState)
    (h : (release_build o distF y m tmp sd s0).value = .ok) :
    cmdsOk o (release_build o distF y m tmp sd s0).trace := by
  by_cases hT : (o (tagListCmd (seriesStr y m))).ok = true
  · cases hN : version_num? (o (tagListCmd (seriesStr y m))).stdout with
    | none =>
      rw [release_build_parse_fail o distF y m tmp sd s0 hT hN] at h
      cases h
    | some n =>
      by_cases hR : (o "git rev-parse HEAD").ok = true
      · by_cases hA : (o gitAddCmd).ok = true
        · by_cases hC : (o (commitReleaseCmd (relVersion y m n)
            (buildTagOf o))).ok = true
          · by_cases hS : (o (tagSignCmd (relVersion y m n)
              (buildTagOf o))).ok = true
            · cases hB : (buildRun o distF y m n tmp s0).2.2 with
              | ok =>
                rw [release_build_main_ok o distF y m n tmp sd s0
                  hT hN hR hA hC hS hB] at h ⊢
                rcases buildDevPhase_ok o sd (seriesStr y m) n _ _ h with
                  ⟨nv, hnv, htr, hA2, hC2⟩
                rw [htr]
                refine cmdsOk_append o _ _
                  (cmdsOk_buildFinTrace o distF y m n tmp sd s0
                    hT hR hA hC hS hB) ?_
                intro c3 hc3
                rcases List.mem_cons.mp hc3 with h6 | hc3
                · cases h6
                · rcases List.mem_cons.mp hc3 with h6 | hc3
                  · cases h6; exact hA2
                  · rcases List.mem_singleton.mp hc3 with h6
                    cases h6
                    exact hC2
              | err e =>
                rw [release_build_main_err o distF y m n tmp sd s0 e
                  hT hN hR hA hC hS hB] at h
                cases h
            · rw [release_build_ts_fail o distF y m n tmp sd s0
                hT hN hR hA hC (bfalse hS)] at h
              cases h
          · rw [release_build_cm_fail o distF y m n tmp sd s0
              hT hN hR hA (bfalse hC)] at h
            cases h
        · rw [release_build_add_fail o distF y m n tmp sd s0
            hT hN hR (bfalse hA)] at h
          cases h
      · rw [release_build_rev_fail o distF y m n tmp sd s0
          hT hN (bfalse hR)] at h
        cases h
  · rw [release_build_tagL_fail o distF y m tmp sd s0 (bfalse hT)] at h
    cases h

/-- A failing command aborts the build task: commands before it all
succeeded, and only cleanup follows it. -/
theorem release_build_failDecomp (o : Oracle) (distF : Nat → List String)
    (y m : Nat) (tmp sd : String) (s0 : PState) :
    failDecomp o (release_build o distF y m tmp sd s0) := by
  intro c hc
  by_cases hT : (o (tagListCmd (seriesStr y m))).ok = true
  · cases hN : version_num? (o (tagListCmd (seriesStr y m))).stdout with
    | none =>
      rw [release_build_parse_fail o distF y m tmp sd s0 hT hN] at hc
      have h5 : Outcome.err Err.parseFail =
          Outcome.err (Err.cmdFail c) := hc
      injection h5 with h6
      cases h6
    | some n =>
      by_cases hR : (o "git rev-parse HEAD").ok = true
      · by_cases hA : (o gitAddCmd).ok = true
        · by_cases hC : (o (commitReleaseCmd (relVersion y m n)
            (buildTagOf o))).ok = true
          · by_cases hS : (o (tagSignCmd (relVersion y m n)
              (buildTagOf o))).ok = true
            · cases hB : (buildRun o distF y m n tmp s0).2.2 with
              | ok =>
                rw [release_build_main_ok o distF y m n tmp sd s0
                  hT hN hR hA hC hS hB] at hc ⊢
                rcases buildDevPhase_fail o sd (seriesStr y m) n _ _ c hc
                  (cmdsOk_buildFinTrace o distF y m n tmp sd s0
                    hT hR hA hC hS hB) with ⟨pre, htr, hco, hpre⟩
                exact ⟨pre, [], by simpa using htr, hco, hpre, cleanupOnly_nil⟩
              | err e =>
                rw [release_build_main_err o distF y m n tmp sd s0 e
                  hT hN hR hA hC hS hB] at hc ⊢
                have h5 : Outcome.err e = Outcome.err (Err.cmdFail c) := hc
                have he : e = .cmdFail c := by injection h5
                subst he
                rcases buildTryBody_fail o distF (relVersion y m n)
                  (slashed tmp) s0.cwd { s0 with fs := s0.fs ++ [tmp] } c hB
                  with ⟨pre, htr, hco, hpre⟩
                refine ⟨preTrace o y m n sd ++ Action.mkdtemp tmp :: pre,
                  [Action.chdir s0.cwd, Action.rmtree (slashed tmp)], ?_,
                  hco, ?_, cleanupOnly_pair _ _⟩
                · show buildFinTrace o distF y m n tmp sd s0 = _
                  rw [buildFinTrace, buildRun, htr]
                  simp
                · intro c3 hc3
                  rcases List.mem_append.mp hc3 with hc3 | hc3
                  · exact cmdsOk_preTrace o y m n sd hT hR hA hC hS c3 hc3
                  · rcases List.mem_cons.mp hc3 with h6 | hc3
                    · cases h6
                    · exact hpre c3 hc3
            · rw [release_build_ts_fail o distF y m n tmp sd s0
                hT hN hR hA hC (bfalse hS)] at hc ⊢
              have h5 : Outcome.err (Err.cmdFail
                  (tagSignCmd (relVersion y m n) (buildTagOf o))) =
                Outcome.err (Err.cmdFail c) := hc
              have he : c = tagSignCmd (relVersion y m n) (buildTagOf o) := by
                injection h5 with h6
                injection h6 with h7
                exact h7.symm
              subst he
              refine ⟨[Action.cmd (tagListCmd (seriesStr y m)),
                Action.cmd "git rev-parse HEAD",
                Action.writeFile (aboutPath sd)
                  (aboutContent (relVersion y m n) (buildTagOf o)),
                Action.cmd gitAddCmd,
                Action.cmd (commitReleaseCmd (relVersion y m n)
                  (buildTagOf o))], [], rfl, bfalse hS, ?_, cleanupOnly_nil⟩
              intro c3 hc3
              simp only [List.mem_cons] at hc3
              rcases hc3 with h6 | h6 | h6 | h6 | h6 | h6
              · cases h6; exact hT
              · cases h6; exact hR
              · cases h6
              · cases h6; exact hA
              · cases h6; exact hC
              · simp at h6
          · rw [release_build_cm_fail o distF y m n tmp sd s0
              hT hN hR hA (bfalse hC)] at hc ⊢
            have h5 : Outcome.err (Err.cmdFail
                (commitReleaseCmd (relVersion y m n) (buildTagOf o))) =
              Outcome.err (Err.cmdFail c) := hc
            have he : c = commitReleaseCmd (relVersion y m n)
                (buildTagOf o) := by
              injection h5 with h6
              injection h6 with h7
              exact h7.symm
            subst he
            refine ⟨[Action.cmd (tagListCmd (seriesStr y m)),
              Action.cmd "git rev-parse HEAD",
              Action.writeFile (aboutPath sd)
                (aboutContent (relVersion y m n) (buildTagOf o)),
              Action.cmd gitAddCmd], [], rfl, bfalse hC, ?_, cleanupOnly_nil⟩
            intro c3 hc3
            simp only [List.mem_cons] at hc3
            rcases hc3 with h6 | h6 | h6 | h6 | h6
            · cases h6; exact hT
            · cases h6; exact hR
            · cases h6
            · cases h6; exact hA
            · simp at h6
        · rw [release_build_add_fail o distF y m n tmp sd s0
            hT hN hR (bfalse hA)] at hc ⊢
          have h5 : Outcome.err (Err.cmdFail gitAddCmd) =
              Outcome.err (Err.cmdFail c) := hc
          have he : c = gitAddCmd := by
            injection h5 with h6
            injection h6 with h7
            exact h7.symm
          subst he
          refine ⟨[Action.cmd (tagListCmd (seriesStr y m)),
            Action.cmd "git rev-parse HEAD",
            Action.writeFile (aboutPath sd)
              (aboutContent (relVersion y m n) (buildTagOf o))], [],
            rfl, bfalse hA, ?_, cleanupOnly_nil⟩
          intro c3 hc3
          simp only [List.mem_cons] at hc3
          rcases hc3 with h6 | h6 | h6 | h6
          · cases h6; exact hT
          · cases h6; exact hR
          · cases h6
          · simp at h6
      · rw [release_build_rev_fail o distF y m n tmp sd s0
          hT hN (bfalse hR)] at hc ⊢
        have h5 : Outcome.err (Err.cmdFail "git rev-parse HEAD") =
            Outcome.err (Err.cmdFail c) := hc
        have he : c = "git rev-parse HEAD" := by
          injection h5 with h6
          injection h6 with h7
          exact h7.symm
        subst he
        refine ⟨[Action.cmd (tagListCmd (seriesStr y m))], [], rfl,
          bfalse hR, ?_, cleanupOnly_nil⟩
        intro c3 hc3
        rcases List.mem_singleton.mp hc3 with h6
        cases h6
        exact hT
  · rw [release_build_tagL_fail o distF y m tmp sd s0 (bfalse hT)] at hc ⊢
    have h5 : Outcome.err (Err.cmdFail (tagListCmd (seriesStr y m))) =
        Outcome.err (Err.cmdFail c) := hc
    have he : c = tagListCmd (seriesStr y m) := by
      injection h5 with h6
      injection h6 with h7
      exact h7.symm
    subst he
    exact ⟨[], [], rfl, bfalse hT, cmdsOk_nil o, cleanupOnly_nil⟩

/-! ### Upload task and pre-task sequencing -/

theorem release_upload_state (o : Oracle) (repo : Option String)
    (s0 : PState) : (release_upload o repo s0).state = s0 := by
  by_cases h : (o (twineCmd repo)).ok = true <;> simp [release_upload, h]

theorem release_upload_ok_cmdsOk (o : Oracle) (repo : Option String)
    (s0 : PState) (h : (release_upload o repo s0).value = .ok) :
    cmdsOk o (release_upload o repo s0).trace := by
  by_cases hk : (o (twineCmd repo)).ok = true
  · simp only [release_upload, hk, if_true] at h ⊢
    intro c hc
    rcases List.mem_singleton.mp hc with h6
    cases h6
    exact hk
  · simp only [release_upload, bfalse hk, Bool.false_eq_true, if_false] at h
    cases h

theorem release_upload_failDecomp (o : Oracle) (repo : Option String)
    (s0 : PState) : failDecomp o (release_upload o repo s0) := by
  intro c hc
  by_cases hk : (o (twineCmd repo)).ok = true
  · simp only [release_upload, hk, if_true] at hc
    cases hc
  · simp only [release_upload, bfalse hk, Bool.false_eq_true, if_false]
      at hc ⊢
    have h5 : Outcome.err (Err.cmdFail (twineCmd repo)) =
        Outcome.err (Err.cmdFail c) := hc
    have he : c = twineCmd repo := by
      injection h5 with h6
      injection h6 with h7
      exact h7.symm
    subst he
    exact ⟨[], [], rfl, bfalse hk, cmdsOk_nil o, cleanupOnly_nil⟩

theorem seqTask_ok (r : Result) (k : PState → Result) (h : r.value = .ok) :
    seqTask r k =
      { state := (k r.state).state
        trace := r.trace ++ (k r.state).trace
        value := (k r.state).value } := by
  simp [seqTask, h]

theorem seqTask_err (r : Result) (k : PState → Result) (e : Err)
    (h : r.value = .err e) :
    seqTask r k =
      { state := r.state
        trace := r.trace
        value := .err e } := by
  simp [seqTask, h]

theorem seqTask_failDecomp (o : Oracle) (r : Result) (k : PState → Result)
    (hr : failDecomp o r) (hok : r.value = .ok → cmdsOk o r.trace)
    (hk : ∀ s, failDecomp o (k s)) : failDecomp o (seqTask r k) := by
  intro c hc
  cases hv : r.value with
  | ok =>
    rw [seqTask_ok r k hv] at hc ⊢
    rcases hk r.state c hc with ⟨pre, post, htr, hco, hpre, hpost⟩
    refine ⟨r.trace ++ pre, post, ?_, hco, ?_, hpost⟩
    · show r.trace ++ (k r.state).trace = _
      rw [htr]
      simp
    · exact cmdsOk_append o _ _ (hok hv) hpre
  | err e =>
    rw [seqTask_err r k e hv] at hc ⊢
    have h5 : Outcome.err e = Outcome.err (Err.cmdFail c) := hc
    have he : e = .cmdFail c := by injection h5
    subst he
    exact hr c hv

theorem release_all_body_failDecomp (o : Oracle) (s : PState) :
    failDecomp o (release_all_body s) := by
  intro c hc
  cases hc

theorem release_all_body_ok_cmdsOk (o : Oracle) (s : PState) :
    cmdsOk o (release_all_body s).trace := cmdsOk_nil o

/-! ### The `all` task: properties -/

theorem release_all_failDecomp (o : Oracle) (repo db : Option String)
    (distF : Nat → List String) (y m : Nat) (tmpT tmpB sd : String)
    (s0 : PState) :
    failDecomp o (release_all o repo db distF y m tmpT tmpB sd s0) := by
  refine seqTask_failDecomp o _ _ (release_test_failDecomp o db tmpT s0)
    (release_test_ok_cmdsOk o db tmpT s0) ?_
  intro s1
  refine seqTask_failDecomp o _ _ (release_build_failDecomp o distF y m
    tmpB sd s1) (release_build_ok_cmdsOk o distF y m tmpB sd s1) ?_
  intro s2
  refine seqTask_failDecomp o _ _ (release_upload_failDecomp o repo s2)
    (release_upload_ok_cmdsOk o repo s2) ?_
  intro s3
  exact release_all_body_failDecomp o s3

theorem release_all_env_none (o : Oracle) (repo : Option String)
    (distF : Nat → List String) (y m : Nat) (tmpT tmpB sd : String)
    (s0 : PState) :
    (release_all o repo none distF y m tmpT tmpB sd s0).state.env
      = s0.env := by
  rw [release_all]
  have ht := release_test_env o none tmpT s0
  cases hv1 : (release_test o none tmpT s0).value with
  | err e =>
    rw [seqTask_err _ _ e hv1]
    exact ht
  | ok =>
    rw [seqTask_ok _ _ hv1]
    have hb := release_build_env o distF y m tmpB sd
      (release_test o none tmpT s0).state
    cases hv2 : (release_build o distF y m tmpB sd
        (release_test o none tmpT s0).state).value with
    | err e =>
      rw [seqTask_err _ _ e hv2]
      rw [hb, ht]
      rfl
    | ok =>
      rw [seqTask_ok _ _ hv2]
      have hu := release_upload_state o repo
        (release_build o distF y m tmpB sd
          (release_test o none tmpT s0).state).state
      cases hv3 : (release_upload o repo
          (release_build o distF y m tmpB sd
            (release_test o none tmpT s0).state).state).value with
      | err e =>
        rw [seqTask_err _ _ e hv3]
        rw [hu, hb, ht]
        rfl
      | ok =>
        rw [seqTask_ok _ _ hv3]
        show (release_upload o repo _).state.env = _
        rw [hu, hb, ht]
        rfl

/-! ### Concrete inputs used by the witnesses -/

/-- A world in which every command succeeds, with plausible output. -/
def oAll : Oracle := fun c =>
  if c = "tox -l" then ⟨true, "py27 docs packaging\n"⟩
  else if c = "git rev-parse HEAD" then
    ⟨true, "abcdef1234567890abcdef1234567890abcdef12\n"⟩
  else if c = "git rev-parse --abbrev-ref HEAD" then ⟨true, "master\n"⟩
  else if c = tagListCmd "13.10" then ⟨true, "v13.10.0 v13.10.1\n"⟩
  else ⟨true, ""⟩

/-- Same world, except `tox -l` exits with a nonzero status. -/
def oFailTox : Oracle := fun c =>
  if c = "tox -l" then ⟨false, ""⟩ else oAll c

/-- `os.listdir("dist")` results: one file after `sdist`, another after
`bdist_wheel`. -/
def dF0 : Nat → List String := fun i =>
  if i = 1 then ["w.tar.gz"]
  else if i = 2 then ["w.tar.gz"]
  else if i = 3 then ["w.tar.gz", "w.whl"]
  else []

/-- An initial process state. -/
def st0 : PState := ⟨"/w", [], []⟩

/-! ### The claims -/

/-- Claim C6: for every run of the build task, the release version string
is prefixed by the version series, a year.month string derived from the
current UTC date: the two-digit year and the month, each rendered as a
decimal integer without leading zeros, joined by a dot. -/
theorem c6_version_series_format (y m n : Nat) :
    version_series? y m = some (seriesStr y m) ∧
    seriesStr y m = pyStr (y % 100) ++ "." ++ pyStr m ∧
    release_version? (seriesStr y m) n =
      some (seriesStr y m ++ "." ++ pyStr n) ∧
    ∃ rest, release_version? (seriesStr y m) n =
      some (seriesStr y m ++ rest) := by
  refine ⟨version_series_eq y m, rfl, release_version_eq y m n,
    "." ++ pyStr n, ?_⟩
  rw [release_version_eq y m n, str_assoc]

/-- Claim C8: for every invocation of the test task and of the build
task, the process working directory on exit (whether the task succeeds
or raises) equals the working directory the task started in. -/
theorem c8_cwd_restored (o : Oracle) (db : Option String)
    (distF : Nat → List String) (y m : Nat) (tmpT tmpB sd : String)
    (sT sB : PState) :
    (release_test o db tmpT sT).state.cwd = sT.cwd ∧
    (release_build o distF y m tmpB sd sB).state.cwd = sB.cwd :=
  ⟨release_test_cwd o db tmpT sT, release_build_cwd o distF y m tmpB sd sB⟩

/-- Claim C2 (failing input): with existing tags `v13.10.9` and
`v13.10.10` the code computes counter 10 — one greater than the last
component of the lexicographically greatest tag string `v13.10.9` — even
though a tag with counter 10 already exists, so the new counter is not
strictly greater than every existing counter and the subsequent
`git tag v13.10.10` would collide. -/
theorem c2_counter_not_monotonic :
    version_num? "v13.10.10\nv13.10.9\n" = some 10 ∧
    "v13.10.10" ∈ pySplitWs "v13.10.10\nv13.10.9\n" ∧
    tagCounter "v13.10.10" = some 10 ∧
    ¬ ∀ t ∈ pySplitWs "v13.10.10\nv13.10.9\n", ∀ c,
      tagCounter t = some c → c < 10 := by
  refine ⟨by decide, by decide, by decide, ?_⟩
  intro hall
  have := hall "v13.10.10" (by decide) 10 (by decide)
  omega

/-- Claim C4 (counterexample): invoking the test task with a non-empty
database argument mutates the process environment and never restores it,
so the environment after the task differs from the one before. -/
theorem c4_env_counterexample :
    (release_test (fun _ => ⟨false, ""⟩) (some "postgres://db") "/tmp/t"
      st0).state.env ≠ st0.env := by
  decide

/-- Claim C4 (amended): the build and upload tasks never change the
environment; the test task (and hence `all`) leaves it unchanged when no
database argument is given, and records `WAREHOUSE_DATABASE_URL` when a
non-empty one is given. -/
theorem c4_env_frame (o : Oracle) (repo db : Option String)
    (distF : Nat → List String) (y m : Nat) (tmpT tmpB sd : String)
    (sT sB sU s0 : PState) :
    (release_build o distF y m tmpB sd sB).state.env = sB.env ∧
    (release_upload o repo sU).state.env = sU.env ∧
    (db = none → (release_test o db tmpT sT).state.env = sT.env ∧
      (release_all o repo db distF y m tmpT tmpB sd s0).state.env
        = s0.env) ∧
    (∀ d, db = some d → d ≠ "" →
      (release_test o db tmpT sT).state.env =
        envSet sT.env "WAREHOUSE_DATABASE_URL" d) := by
  refine ⟨release_build_env o distF y m tmpB sd sB, ?_, ?_, ?_⟩
  · rw [release_upload_state o repo sU]
  · rintro rfl
    exact ⟨release_test_env o none tmpT sT,
      release_all_env_none o repo distF y m tmpT tmpB sd s0⟩
  · rintro d rfl hd
    rw [release_test_env o (some d) tmpT sT]
    simp [dbState, hd]

/-- Witness for C4's amended claim at a concrete input. -/
theorem c4_env_frame_witness :
    (release_test oAll none "/tmp/t" st0).state.env = st0.env ∧
    (release_all oAll none none dF0 2013 10 "/tmp/t" "/tmp/b" "/srv"
      st0).state.env = st0.env ∧
    (release_test oAll (some "postgres://db") "/tmp/t" st0).state.env =
      envSet st0.env "WAREHOUSE_DATABASE_URL" "postgres://db" := by
  refine ⟨?_, ?_, ?_⟩
  · exact ((c4_env_frame oAll none none dF0 2013 10 "/tmp/t" "/tmp/b" "/srv"
      st0 st0 st0 st0).2.2.1 rfl).1
  · exact ((c4_env_frame oAll none none dF0 2013 10 "/tmp/t" "/tmp/b" "/srv"
      st0 st0 st0 st0).2.2.1 rfl).2
  · exact (c4_env_frame oAll none (some "postgres://db") dF0 2013 10 "/tmp/t"
      "/tmp/b" "/srv" st0 st0 st0 st0).2.2.2 "postgres://db" rfl
      (by decide)

/-- Claim C1: for every invocation of the test task and of the build
task, the temporary export directory created by the task is removed on
every exit path — on success, on failure of any invoked command, and on
any other exception (the universally quantified oracle and listing
function cover all of these). -/
theorem c1_tmpdir_removed (o : Oracle) (db : Option String)
    (distF : Nat → List String) (y m : Nat) (tmpT tmpB sd : String)
    (sT sB : PState)
    (hfresh : ∀ q ∈ sB.fs, normDir q ≠ normDir tmpB) :
    (∃ pre, (release_test o db tmpT sT).trace =
      pre ++ [Action.chdir sT.cwd, Action.rmtree (slashed tmpT)]) ∧
    (∀ q ∈ (release_test o db tmpT sT).state.fs,
      normDir q ≠ normDir tmpT) ∧
    (Action.mkdtemp tmpB ∈ (release_build o distF y m tmpB sd sB).trace →
      Action.rmtree (slashed tmpB) ∈
        (release_build o distF y m tmpB sd sB).trace) ∧
    (∀ q ∈ (release_build o distF y m tmpB sd sB).state.fs,
      normDir q ≠ normDir tmpB) :=
  ⟨release_test_trace_tail o db tmpT sT, release_test_fs o db tmpT sT,
    release_build_mkdtemp_rmtree o distF y m tmpB sd sB,
    release_build_fs o distF y m tmpB sd sB hfresh⟩

/-- Witness for C1 at a concrete world. -/
theorem c1_tmpdir_removed_witness :
    (∀ q ∈ st0.fs, normDir q ≠ normDir "/tmp/b") ∧
    ((∃ pre, (release_test oAll none "/tmp/t" st0).trace =
      pre ++ [Action.chdir st0.cwd, Action.rmtree (slashed "/tmp/t")]) ∧
    (∀ q ∈ (release_test oAll none "/tmp/t" st0).state.fs,
      normDir q ≠ normDir "/tmp/t") ∧
    (Action.mkdtemp "/tmp/b" ∈
        (release_build oAll dF0 2013 10 "/tmp/b" "/srv" st0).trace →
      Action.rmtree (slashed "/tmp/b") ∈
        (release_build oAll dF0 2013 10 "/tmp/b" "/srv" st0).trace) ∧
    (∀ q ∈ (release_build oAll dF0 2013 10 "/tmp/b" "/srv" st0).state.fs,
      normDir q ≠ normDir "/tmp/b")) :=
  ⟨by intro q hq; simp [st0] at hq,
    c1_tmpdir_removed oAll none dF0 2013 10 "/tmp/t" "/tmp/b" "/srv" st0 st0
      (by intro q hq; simp [st0] at hq)⟩

/-- Claim C3: for every task, a command exiting with nonzero status makes
the runner raise and the task abort — no later command runs, no retry is
made, and only the guaranteed-cleanup block's directory cleanup follows
the failing command in the trace. -/
theorem c3_abort_on_failure (o : Oracle) (repo db : Option String)
    (distF : Nat → List String) (y m : Nat) (tmpT tmpB sd : String)
    (sT sB sU s0 : PState) :
    failDecomp o (release_test o db tmpT sT) ∧
    failDecomp o (release_build o distF y m tmpB sd sB) ∧
    failDecomp o (release_upload o repo sU) ∧
    failDecomp o (release_all o repo db distF y m tmpT tmpB sd s0) :=
  ⟨release_test_failDecomp o db tmpT sT,
    release_build_failDecomp o distF y m tmpB sd sB,
    release_upload_failDecomp o repo sU,
    release_all_failDecomp o repo db distF y m tmpT tmpB sd s0⟩

/-- Witness for C3: in a world where `tox -l` fails, the test task's
trace is successful commands, the failing `tox -l`, then cleanup only. -/
theorem c3_abort_on_failure_witness :
    ∃ pre post, (release_test oFailTox none "/tmp/t" st0).trace =
      pre ++ Action.cmd "tox -l" :: post ∧
      (oFailTox "tox -l").ok = false ∧ cmdsOk oFailTox pre ∧
      cleanupOnly post :=
  (c3_abort_on_failure oFailTox none none dF0 2013 10 "/tmp/t" "/tmp/b"
    "/srv" st0 st0 st0 st0).1 "tox -l" (by decide)

/-- Claim C5: the `all` command executes exactly test, then build, then
upload, in that order, and performs no action of its own: its result is
the sequential composition of the three tasks, aborting at the first
failing task. -/
theorem c5_all_sequence (o : Oracle) (repo db : Option String)
    (distF : Nat → List String) (y m : Nat) (tmpT tmpB sd : String)
    (s0 : PState) :
    (∀ e, (release_test o db tmpT s0).value = .err e →
      release_all o repo db distF y m tmpT tmpB sd s0 =
        release_test o db tmpT s0) ∧
    ((release_test o db tmpT s0).value = .ok →
      ∀ e, (release_build o distF y m tmpB sd
          (release_test o db tmpT s0).state).value = .err e →
      release_all o repo db distF y m tmpT tmpB sd s0 =
        { state := (release_build o distF y m tmpB sd
            (release_test o db tmpT s0).state).state
          trace := (release_test o db tmpT s0).trace ++
            (release_build o distF y m tmpB sd
              (release_test o db tmpT s0).state).trace
          value := .err e }) ∧
    ((release_test o db tmpT s0).value = .ok →
      (release_build o distF y m tmpB sd
        (release_test o db tmpT s0).state).value = .ok →
      release_all o repo db distF y m tmpT tmpB sd s0 =
        { state := (release_upload o repo
            (release_build o distF y m tmpB sd
              (release_test o db tmpT s0).state).state).state
          trace := (release_test o db tmpT s0).trace ++
            (release_build o distF y m tmpB sd
              (release_test o db tmpT s0).state).trace ++
            (release_upload o repo
              (release_build o distF y m tmpB sd
                (release_test o db tmpT s0).state).state).trace
          value := (release_upload o repo
            (release_build o distF y m tmpB sd
              (release_test o db tmpT s0).state).state).value }) := by
  refine ⟨?_, ?_, ?_⟩
  · intro e he
    rw [release_all, seqTask_err _ _ e he, ← he]
  · intro h1 e h2
    rw [release_all, seqTask_ok _ _ h1, seqTask_err _ _ e h2]
  · intro h1 h2
    rw [release_all, seqTask_ok _ _ h1, seqTask_ok _ _ h2]
    cases hv3 : (release_upload o repo
        (release_build o distF y m tmpB sd
          (release_test o db tmpT s0).state).state).value with
    | ok =>
      rw [seqTask_ok _ _ hv3, ← hv3]
      simp [release_all_body]
      exact hv3.symm
    | err e =>
      rw [seqTask_err _ _ e hv3, ← hv3]
      simp

/-- Witness for C5 on an all-successful world. -/
theorem c5_all_sequence_witness :
    release_all oAll none none dF0 2013 10 "/tmp/t" "/tmp/b" "/srv" st0 =
      { state := (release_upload oAll none
          (release_build oAll dF0 2013 10 "/tmp/b" "/srv"
            (release_test oAll none "/tmp/t" st0).state).state).state
        trace := (release_test oAll none "/tmp/t" st0).trace ++
          (release_build oAll dF0 2013 10 "/tmp/b" "/srv"
            (release_test oAll none "/tmp/t" st0).state).trace ++
          (release_upload oAll none
            (release_build oAll dF0 2013 10 "/tmp/b" "/srv"
              (release_test oAll none "/tmp/t" st0).state).state).trace
        value := (release_upload oAll none
          (release_build oAll dF0 2013 10 "/tmp/b" "/srv"
            (release_test oAll none "/tmp/t" st0).state).state).value } :=
  (c5_all_sequence oAll none none dF0 2013 10 "/tmp/t" "/tmp/b" "/srv"
    st0).2.2 (by decide) (by decide)

/-- Claim C9: for every invocation of the test task, the tox environments
run are exactly the environments listed by `tox -l` minus "packaging",
each run at most once, and "packaging" is never run; on an aborted run a
prefix of that list is run, still without duplicates or "packaging". -/
theorem c9_tox_environments (o : Oracle) (db : Option String)
    (tmp : String) (s0 : PState) :
    "packaging" ∉ toxCmdsOf (release_test o db tmp s0).trace ∧
    (toxCmdsOf (release_test o db tmp s0).trace).Nodup ∧
    ((release_test o db tmp s0).value = .ok →
      toxCmdsOf (release_test o db tmp s0).trace = toxEnvsOf o) := by
  rcases release_test_toxCmds o db tmp s0 with ⟨k, hk⟩
  refine ⟨?_, ?_, release_test_toxCmds_ok o db tmp s0⟩
  · rw [hk]
    intro hmem
    exact packaging_not_mem_toxEnvsOf o (List.take_subset k _ hmem)
  · rw [hk]
    exact (toxEnvsOf_nodup o).sublist (List.take_sublist k _)

/-- Witness for C9 on a successful run. -/
theorem c9_tox_environments_witness :
    toxCmdsOf (release_test oAll none "/tmp/t" st0).trace =
      toxEnvsOf oAll :=
  (c9_tox_environments oAll none "/tmp/t" st0).2.2 (by decide)

/-- Once the tag listing, the counter parse and `git rev-parse HEAD`
succeed, the release `__about__.py` write appears in the build trace on
every subsequent path. -/
theorem release_build_writeFile_mem (o : Oracle) (distF : Nat → List String)
    (y m n : Nat) (tmp sd : String) (s0 : PState)
    (hT : (o (tagListCmd (seriesStr y m))).ok = true)
    (hN : version_num? (o (tagListCmd (seriesStr y m))).stdout = some n)
    (hR : (o "git rev-parse HEAD").ok = true) :
    Action.writeFile (aboutPath sd)
      (aboutContent (relVersion y m n) (buildTagOf o)) ∈
      (release_build o distF y m tmp sd s0).trace := by
  by_cases hA : (o gitAddCmd).ok = true
  · by_cases hC : (o (commitReleaseCmd (relVersion y m n)
      (buildTagOf o))).ok = true
    · by_cases hS : (o (tagSignCmd (relVersion y m n)
        (buildTagOf o))).ok = true
      · cases hB : (buildRun o distF y m n tmp s0).2.2 with
        | ok =>
          rw [release_build_main_ok o distF y m n tmp sd s0
            hT hN hR hA hC hS hB]
          rcases buildDevPhase_trace_suffix o sd (seriesStr y m) n
            (buildFinState o distF y m n tmp s0)
            (buildFinTrace o distF y m n tmp sd s0) with ⟨suf, hsuf⟩
          rw [hsuf]
          refine List.mem_append.mpr (Or.inl ?_)
          simp [buildFinTrace, preTrace]
        | err e =>
          rw [release_build_main_err o distF y m n tmp sd s0 e
            hT hN hR hA hC hS hB]
          show Action.writeFile _ _ ∈ buildFinTrace o distF y m n tmp sd s0
          simp [buildFinTrace, preTrace]
      · rw [release_build_ts_fail o distF y m n tmp sd s0
          hT hN hR hA hC (bfalse hS)]
        simp
    · rw [release_build_cm_fail o distF y m n tmp sd s0
        hT hN hR hA (bfalse hC)]
      simp
  · rw [release_build_add_fail o distF y m n tmp sd s0
      hT hN hR (bfalse hA)]
    simp

/-- Claim C7: for every run of the build task, the build tag equals the
first seven characters of the revision identifier reported by
`git rev-parse HEAD`, and it is embedded in the generated
`warehouse/__about__.py` as the value of `__build__`. -/
theorem c7_build_tag (o : Oracle) (distF : Nat → List String)
    (y m n : Nat) (tmp sd : String) (s0 : PState) (rev : List Char)
    (hT : (o (tagListCmd (seriesStr y m))).ok = true)
    (hN : version_num? (o (tagListCmd (seriesStr y m))).stdout = some n)
    (hR : (o "git rev-parse HEAD").ok = true)
    (hstdout : (o "git rev-parse HEAD").stdout.data = rev ++ ['\n'])
    (hlen : 7 ≤ rev.length) :
    buildTagOf o = ⟨rev.take 7⟩ ∧
    Action.writeFile (aboutPath sd)
      (aboutContent (relVersion y m n) (buildTagOf o)) ∈
      (release_build o distF y m tmp sd s0).trace ∧
    ∃ pre post, aboutContent (relVersion y m n) (buildTagOf o) =
      pre ++ "__build__ = \"" ++ buildTagOf o ++ "\"" ++ post := by
  refine ⟨?_,
    release_build_writeFile_mem o distF y m n tmp sd s0 hT hN hR, ?_⟩
  · rw [buildTagOf, pySlice, hstdout]
    congr 1
    exact List.take_append_of_le_length hlen
  · refine ⟨aboutHeader ++ relVersion y m n ++ "\"\n", aboutPost, ?_⟩
    simp [aboutContent, aboutMid, aboutFooter, str_assoc]

/-- Witness for C7 at a concrete revision. -/
theorem c7_build_tag_witness :
    buildTagOf oAll =
      ⟨("abcdef1234567890abcdef1234567890abcdef12" : String).data.take 7⟩ ∧
    Action.writeFile (aboutPath "/srv")
      (aboutContent (relVersion 2013 10 2) (buildTagOf oAll)) ∈
      (release_build oAll dF0 2013 10 "/tmp/b" "/srv" st0).trace ∧
    ∃ pre post, aboutContent (relVersion 2013 10 2) (buildTagOf oAll) =
      pre ++ "__build__ = \"" ++ buildTagOf oAll ++ "\"" ++ post :=
  c7_build_tag oAll dF0 2013 10 2 "/tmp/b" "/srv" st0
    ("abcdef1234567890abcdef1234567890abcdef12" : String).data
    (by decide) (by decide) (by decide) (by decide) (by decide)

/-- Claim C10: for every successful run of the build task, after the
release artifacts are built the metadata file `warehouse/__about__.py`
is regenerated with development values — version equal to the series
joined with a counter one greater than the released counter, suffixed
with ".dev0", build tag the literal "<development>" — and the file is
then added and committed; these are the final actions of the task. -/
theorem c10_dev_version (o : Oracle) (distF : Nat → List String)
    (y m n : Nat) (tmp sd : String) (s0 : PState)
    (hN : version_num? (o (tagListCmd (seriesStr y m))).stdout = some n)
    (hok : (release_build o distF y m tmp sd s0).value = .ok) :
    ∃ pre, (release_build o distF y m tmp sd s0).trace =
      pre ++ [Action.writeFile (aboutPath sd)
          (aboutContent (relVersion y m (n + 1) ++ ".dev0") "<development>"),
        Action.cmd gitAddCmd, Action.cmd commitDevCmd] := by
  by_cases hT : (o (tagListCmd (seriesStr y m))).ok = true
  · by_cases hR : (o "git rev-parse HEAD").ok = true
    · by_cases hA : (o gitAddCmd).ok = true
      · by_cases hC : (o (commitReleaseCmd (relVersion y m n)
          (buildTagOf o))).ok = true
        · by_cases hS : (o (tagSignCmd (relVersion y m n)
            (buildTagOf o))).ok = true
          · cases hB : (buildRun o distF y m n tmp s0).2.2 with
            | ok =>
              rw [release_build_main_ok o distF y m n tmp sd s0
                hT hN hR hA hC hS hB] at hok ⊢
              rcases buildDevPhase_ok o sd (seriesStr y m) n _ _ hok with
                ⟨nv, hnv, htr, -, -⟩
              have hrv := release_version_eq y m (n + 1)
              rw [release_version?] at hrv
              rw [hrv] at hnv
              have hnv2 : nv = seriesStr y m ++ "." ++ pyStr (n + 1) := by
                injection hnv with h6
                exact h6.symm
              subst hnv2
              exact ⟨buildFinTrace o distF y m n tmp sd s0, htr⟩
            | err e =>
              rw [release_build_main_err o distF y m n tmp sd s0 e
                hT hN hR hA hC hS hB] at hok
              cases hok
          · rw [release_build_ts_fail o distF y m n tmp sd s0
              hT hN hR hA hC (bfalse hS)] at hok
            cases hok
        · rw [release_build_cm_fail o distF y m n tmp sd s0
            hT hN hR hA (bfalse hC)] at hok
          cases hok
      · rw [release_build_add_fail o distF y m n tmp sd s0
          hT hN hR (bfalse hA)] at hok
        cases hok
    · rw [release_build_rev_fail o distF y m n tmp sd s0
        hT hN (bfalse hR)] at hok
      cases hok
  · rw [release_build_tagL_fail o distF y m tmp sd s0 (bfalse hT)] at hok
    cases hok

/-- Witness for C10: in the all-successful world with released counter 2,
the final actions write the 13.10.3.dev0 development metadata and
commit it. -/
theorem c10_dev_version_witness :
    ∃ pre, (release_build oAll dF0 2013 10 "/tmp/b" "/srv" st0).trace =
      pre ++ [Action.writeFile (aboutPath "/srv")
          (aboutContent (relVersion 2013 10 3 ++ ".dev0") "<development>"),
        Action.cmd gitAddCmd, Action.cmd commitDevCmd] :=
  c10_dev_version oAll dF0 2013 10 2 "/tmp/b" "/srv" st0
    (by decide) (by decide)

end Warehouse
